import Mathlib

/-! Ante handler of `app/ante` (evmos): routing and fee deduction

A shallow embedding of the two Go files

* `app/ante/ante.go` : `NewAnteHandler`, which routes a transaction to one of three
  decorator chains by the type URL of its first extension option;
* `app/ante/fee.go`  : `DeductFeeDecorator`, which resolves the fee payer (first signer, or
  the payer named by an `ExtensionOptionsWeb3Tx`) and deducts the fee.

Go code is sequential and effectful.  Effects are made explicit by state passing: a handler
takes a `World` (the ledger store reachable through the context, together with a ghost trace of
the calls the code makes on its collaborators) and returns a `Result` with the new `World`.
A Go panic is the `Result.panicked` outcome.  What the two files call in imported libraries
is a parameter (keepers, codec, bech32 parsing, the bank transfer, the behaviour of the
decorators of the chains), except for three small library functions that shape the control
flow: `sdk.ChainAnteDecorators` and `sdk.Coins.IsZero` are written out after the library, and
the deferred `ante.Recover` is modelled from section 4.4 of the specification.
-/

namespace Ante

/-! ## Data model -/

/-- `sdk.AccAddress`: a byte string. -/
abbrev AccAddress := List Nat

/-- `codectypes.Any`: a type URL and the serialised value. -/
structure Any where
  typeUrl : String
  value : List Nat
deriving DecidableEq, Repr

/-- `sdk.Coin`: a denomination and an amount. -/
structure Coin where
  denom : String
  amount : Int
deriving DecidableEq, Repr

/-- `sdk.Coins`. -/
abbrev Coins := List Coin

/-- `sdk.Coins.IsZero`: true when every coin of the set has amount zero
(in particular for the empty set). -/
def Coins.IsZero (coins : Coins) : Bool :=
  coins.all (fun c => c.amount == 0)

/-- The amount of denomination `d` held in a coin set. -/
def Coins.amountOf (coins : Coins) (d : String) : Int :=
  ((coins.filter (fun c => c.denom == d)).map Coin.amount).sum

/-- What the `sdk.FeeTx` interface exposes and `fee.go` reads: `GetFee()` and `FeePayer()`
(the first signer unless the transaction sets a payer). -/
structure FeeTx where
  fee : Coins
  feePayer : AccAddress
deriving DecidableEq, Repr

/-- A non-nil transaction value, seen through the two optional capabilities the code tests
with type assertions: `authante.HasExtensionOptionsTx` (`extensionOptions = none` when the
assertion fails) and `sdk.FeeTx` (`feeTx = none` when the assertion fails). -/
structure TxData where
  extensionOptions : Option (List Any)
  feeTx : Option FeeTx
  body : List Nat
deriving DecidableEq, Repr

/-- An `sdk.Tx` interface value; `none` is the nil interface. -/
abbrev Tx := Option TxData

/-- `sdk.Context`, passed around as a value.  The code never looks inside it. -/
structure Context where
  blockHeight : Int
  gasConsumed : Nat
  isCheckTx : Bool
deriving DecidableEq, Repr

/-- The zero value `sdk.Context{}` of a named result that was never assigned. -/
def Context.zero : Context := ⟨0, 0, false⟩

/-- An account object as returned by the account keeper (`authtypes.AccountI`). -/
structure Account where
  address : AccAddress
  sequence : Nat
deriving DecidableEq, Repr

/-- The value `ethermintCodec.UnpackAny` stores into an `ExtensionOptionsWeb3TxI` interface
variable: either a `*ethermint.ExtensionOptionsWeb3Tx` with its `FeePayer` string, or something
else (nil, or another implementation) for which the type assertion of `fee.go` line 54 fails. -/
inductive ExtensionOptionsWeb3TxI where
  | web3Tx (feePayer : String)
  | notWeb3Tx
deriving DecidableEq, Repr

/-- Errors.  The constructors are the registered `sdkerrors` the two files wrap, with the
arguments of the wrapping format string as payload; `propagated` is `stacktrace.Propagate`;
`collaborator` is any error produced by a library service or decorator. -/
inductive SdkError where
  | ErrTxDecode (desc : String)
  | ErrUnpackAny (desc : String)
  | ErrInvalidAddress (feePayer : String)
  | ErrUnknownAddress (feePayer : AccAddress)
  | ErrUnknownRequest (desc : String)
  | ErrUnknownExtensionOptions (typeURL : String)
  | ErrPanic (value : String)
  | propagated (cause : SdkError) (msg : String)
  | collaborator (code : Nat) (desc : String)
deriving DecidableEq, Repr

/-- The outcome of a Go function of type `(sdk.Context, error)`: it returns, or it panics. -/
inductive Result where
  | ret (newCtx : Context) (err : Option SdkError)
  | panicked (value : String)
deriving DecidableEq, Repr

/-- The decorator constructors that occur in `ante.go` and `fee.go`, named as in the source
(package qualifier first).  `NewDeductFeeDecorator` without qualifier is the one of `fee.go`;
`authante_NewDeductFeeDecorator` is the one of the SDK. -/
inductive Decorator where
  | ante_NewEthSetUpContextDecorator
  | authante_NewMempoolFeeDecorator
  | authante_NewTxTimeoutHeightDecorator
  | authante_NewValidateMemoDecorator
  | ante_NewEthValidateBasicDecorator
  | ante_NewEthSigVerificationDecorator
  | ante_NewEthAccountVerificationDecorator
  | ante_NewEthNonceVerificationDecorator
  | ante_NewEthGasConsumeDecorator
  | ante_NewCanTransferDecorator
  | ante_NewEthIncrementSenderSequenceDecorator
  | authante_NewSetUpContextDecorator
  | authante_NewValidateBasicDecorator
  | authante_NewConsumeGasForTxSizeDecorator
  | authante_NewSetPubKeyDecorator
  | authante_NewValidateSigCountDecorator
  | authante_NewDeductFeeDecorator
  | authante_NewSigGasConsumeDecorator
  | NewEip712SigVerificationDecorator
  | authante_NewIncrementSequenceDecorator
  | authante_NewRejectExtensionOptionsDecorator
  | ibcante_NewAnteDecorator
  | authante_NewSigVerificationDecorator
  | NewDeductFeeDecorator
deriving DecidableEq, Repr

/-- Ghost events: the calls `fee.go` makes on its collaborators, and (for an instrumented
chain) the decorators that ran. -/
inductive Event where
  | ran (d : Decorator)
  | getModuleAddress (name : String)
  | unpackAny (opt : Any)
  | accAddressFromBech32 (s : String)
  | getAccount (addr : AccAddress)
  | deductFees (acc : Account) (fees : Coins)
deriving DecidableEq, Repr

/-- The state a handler runs in: the ledger store (of an arbitrary type `σ`, owned by the
keepers) and the ghost trace. -/
structure World (σ : Type) where
  store : σ
  trace : List Event

/-- Append one ghost event. -/
def World.log {σ : Type} (w : World σ) (e : Event) : World σ :=
  ⟨w.store, w.trace ++ [e]⟩

/-- `sdk.AnteHandler`. -/
abbrev AnteHandler (σ : Type) := Context → Tx → Bool → World σ → Result × World σ

/-- The method `AnteHandle` of an `sdk.AnteDecorator`. -/
abbrev AnteDecorator (σ : Type) := Context → Tx → Bool → AnteHandler σ → World σ → Result × World σ

/-! ## `sdk.ChainAnteDecorators` (library) -/

/-- A nil `sdk.AnteHandler`: calling it is a nil dereference. -/
def nilHandler {σ : Type} : AnteHandler σ :=
  fun _ _ _ w => (Result.panicked "invalid memory address or nil pointer dereference", w)

/-- `sdk.Terminator`: returns the context and no error, never calls `next`. -/
def Terminator {σ : Type} : AnteDecorator σ :=
  fun ctx _ _ _ w => (Result.ret ctx none, w)

/-- The recursion of `sdk.ChainAnteDecorators` on a chain that already ends in the terminator:
the head decorator runs with the chain of the tail as its `next`. -/
def chainFrom {σ : Type} : List (AnteDecorator σ) → AnteHandler σ
  | [] => nilHandler
  | d :: rest => fun ctx tx sim w => d ctx tx sim (chainFrom rest) w

/-- `sdk.ChainAnteDecorators`: nil for the empty chain, otherwise the chain closed by
`Terminator`.  This is the Chain Composer of spec section 4.2: each decorator is nested around
a call to the next, outermost first. -/
def ChainAnteDecorators {σ : Type} (chain : List (AnteDecorator σ)) : AnteHandler σ :=
  match chain with
  | [] => nilHandler
  | _ => chainFrom (chain ++ [Terminator])

/-! ## `ante.go` -/

/-- Type URL of the first arm of the switch (`ante.go` line 46). -/
def ethereumTxTypeURL : String := "/ethermint.evm.v1.ExtensionOptionsEthereumTx"

/-- Type URL of the second arm of the switch (`ante.go` line 63). -/
def web3TxTypeURL : String := "/ethermint.types.v1.ExtensionOptionsWeb3Tx"

/-- The decorators passed to `sdk.ChainAnteDecorators` at `ante.go` lines 49-61. -/
def ethereumTxChain : List Decorator :=
  [ .ante_NewEthSetUpContextDecorator,
    .authante_NewMempoolFeeDecorator,
    .authante_NewTxTimeoutHeightDecorator,
    .authante_NewValidateMemoDecorator,
    .ante_NewEthValidateBasicDecorator,
    .ante_NewEthSigVerificationDecorator,
    .ante_NewEthAccountVerificationDecorator,
    .ante_NewEthNonceVerificationDecorator,
    .ante_NewEthGasConsumeDecorator,
    .ante_NewCanTransferDecorator,
    .ante_NewEthIncrementSenderSequenceDecorator ]

/-- The decorators passed to `sdk.ChainAnteDecorators` at `ante.go` lines 68-81. -/
def web3TxChain : List Decorator :=
  [ .authante_NewSetUpContextDecorator,
    .authante_NewMempoolFeeDecorator,
    .authante_NewValidateBasicDecorator,
    .authante_NewTxTimeoutHeightDecorator,
    .authante_NewValidateMemoDecorator,
    .authante_NewConsumeGasForTxSizeDecorator,
    .authante_NewSetPubKeyDecorator,
    .authante_NewValidateSigCountDecorator,
    .authante_NewDeductFeeDecorator,
    .authante_NewSigGasConsumeDecorator,
    .NewEip712SigVerificationDecorator,
    .authante_NewIncrementSequenceDecorator ]

/-- The decorators passed to `sdk.ChainAnteDecorators` at `ante.go` lines 101-116. -/
def sdkTxChain : List Decorator :=
  [ .authante_NewSetUpContextDecorator,
    .authante_NewRejectExtensionOptionsDecorator,
    .authante_NewMempoolFeeDecorator,
    .authante_NewValidateBasicDecorator,
    .authante_NewTxTimeoutHeightDecorator,
    .authante_NewValidateMemoDecorator,
    .ibcante_NewAnteDecorator,
    .authante_NewConsumeGasForTxSizeDecorator,
    .authante_NewSetPubKeyDecorator,
    .authante_NewValidateSigCountDecorator,
    .authante_NewDeductFeeDecorator,
    .authante_NewSigGasConsumeDecorator,
    .authante_NewSigVerificationDecorator,
    .authante_NewIncrementSequenceDecorator ]

/-- The type assertion `tx.(authante.HasExtensionOptionsTx)` followed by
`GetExtensionOptions()`: `none` when the assertion fails (nil transaction, or a transaction
without the capability). -/
def getExtensionOptions (tx : Tx) : Option (List Any) :=
  match tx with
  | none => none
  | some td => td.extensionOptions

/-- `ante.go` lines 99-124: the plain SDK transaction path. -/
def handleSdkTx {σ : Type} (impl : Decorator → AnteDecorator σ) : AnteHandler σ :=
  fun ctx tx sim w =>
    match tx with
    | some _ => ChainAnteDecorators (sdkTxChain.map impl) ctx tx sim w
    | none =>
      (Result.ret ctx (some (SdkError.propagated
          (SdkError.ErrUnknownRequest "invalid transaction type: <nil>")
          "transaction is not an SDK tx")), w)

/-- The body of the closure returned by `NewAnteHandler` (`ante.go` lines 41-124), before the
deferred `ante.Recover` runs.  `impl` gives the behaviour of each constructed decorator. -/
def anteHandlerBody {σ : Type} (impl : Decorator → AnteDecorator σ) : AnteHandler σ :=
  fun ctx tx sim w =>
    match getExtensionOptions tx with
    | some (opt0 :: _) =>
      if opt0.typeUrl = ethereumTxTypeURL then
        ChainAnteDecorators (ethereumTxChain.map impl) ctx tx sim w
      else if opt0.typeUrl = web3TxTypeURL then
        match tx with
        | some _ => ChainAnteDecorators (web3TxChain.map impl) ctx tx sim w
        | none =>
          (Result.ret ctx (some (SdkError.ErrUnknownRequest "invalid transaction type: <nil>")), w)
      else
        (Result.ret ctx (some (SdkError.propagated
            (SdkError.ErrUnknownExtensionOptions opt0.typeUrl)
            "rejecting tx with unsupported extension option")), w)
    | some [] => handleSdkTx impl ctx tx sim w
    | none => handleSdkTx impl ctx tx sim w

/-- Modelled from the spec: the deferred `ante.Recover(ctx.Logger(), &err)` of `ante.go` line 39
is a function of the imported ethermint package `app/ante`, which is not among the sources.
Spec section 4.4: an uncontrolled runtime fault is intercepted at this single boundary and
converted into a generic internal error carrying the original fault's description; the boundary
never re-raises.  So when the body panicked, the panic is stopped, `err` becomes `ErrPanic`
wrapping the panic value and the named result `newCtx` keeps its zero value; otherwise the
results are untouched. -/
def Recover {σ : Type} (r : Result × World σ) : Result × World σ :=
  match r with
  | (Result.panicked v, w) => (Result.ret Context.zero (some (SdkError.ErrPanic v)), w)
  | (Result.ret c e, w) => (Result.ret c e, w)

/-- `NewAnteHandler` (`ante.go` lines 26-126). -/
def NewAnteHandler {σ : Type} (impl : Decorator → AnteDecorator σ) : AnteHandler σ :=
  fun ctx tx sim w => Recover (anteHandlerBody impl ctx tx sim w)

/-! ## `fee.go` -/

/-- `types.FeeCollectorName` of the auth module. -/
def FeeCollectorName : String := "fee_collector"

/-- The account keeper `evmtypes.AccountKeeper`, as far as `fee.go` calls it.  `GetAccount`
reads the store that the context gives access to. -/
structure AccountKeeper (σ : Type) where
  GetModuleAddress : String → Option AccAddress
  GetAccount : Context → σ → AccAddress → Option Account

/-- The bank keeper `types.BankKeeper`.  `fee.go` uses it only as the first argument of the
library function `authante.DeductFees(bankKeeper, ctx, acc, fees)`, which asks the bank to send
`fees` from the account `acc` to the fee-collector module; `DeductFees` is that function for
this keeper: the error it returns, if any, and the store as the bank left it. -/
structure BankKeeper (σ : Type) where
  DeductFees : Context → σ → Account → Coins → Option SdkError × σ

/-- The package-level helpers `fee.go` calls: `ethermintCodec.UnpackAny` into an
`ExtensionOptionsWeb3TxI` variable (`none` is a decoding error) and
`sdk.AccAddressFromBech32` (`none` is a parse error). -/
structure Codec where
  UnpackAny : Any → Option ExtensionOptionsWeb3TxI
  AccAddressFromBech32 : String → Option AccAddress

/-- The struct `DeductFeeDecorator` (`fee.go` lines 19-22). -/
structure DeductFeeDecorator (σ : Type) where
  ak : AccountKeeper σ
  bankKeeper : BankKeeper σ

/-- `NewDeductFeeDecorator` (`fee.go` lines 24-29). -/
def NewDeductFeeDecorator {σ : Type} (ak : AccountKeeper σ) (bk : BankKeeper σ) :
    DeductFeeDecorator σ :=
  { ak := ak, bankKeeper := bk }

/-- The type assertion `tx.(sdk.FeeTx)` (`fee.go` line 32). -/
def asFeeTx (tx : Tx) : Option FeeTx :=
  match tx with
  | none => none
  | some td => td.feeTx

/-- Lines 41-68 of `fee.go`: the delegated payer, if the first extension option names one.
`Except.error` is an early return of `AnteHandle` with that error; `Except.ok none` leaves
`feeDelegated` false; `Except.ok (some a)` sets `feePayer = a` and `feeDelegated = true`.
The test `len(extOpt.FeePayer) > 0` is on the byte length, which is positive exactly when the
number of characters is. -/
def delegatedFeePayer {σ : Type} (codec : Codec) (tx : Tx) (w : World σ) :
    Except SdkError (Option AccAddress) × World σ :=
  match getExtensionOptions tx with
  | some (opt0 :: _) =>
    let w1 := w.log (Event.unpackAny opt0)
    match codec.UnpackAny opt0 with
    | none =>
      (Except.error (SdkError.ErrUnpackAny "failed to proto-unpack ExtensionOptionsWeb3Tx"), w1)
    | some (ExtensionOptionsWeb3TxI.web3Tx feePayer) =>
      if feePayer.length > 0 then
        let w2 := w1.log (Event.accAddressFromBech32 feePayer)
        match codec.AccAddressFromBech32 feePayer with
        | none => (Except.error (SdkError.ErrInvalidAddress feePayer), w2)
        | some addr => (Except.ok (some addr), w2)
      else (Except.ok none, w1)
    | some ExtensionOptionsWeb3TxI.notWeb3Tx => (Except.ok none, w1)
  | some [] => (Except.ok none, w)
  | none => (Except.ok none, w)

/-- Lines 70-87 of `fee.go`: look the payer up, deduct a non-zero fee, call `next`. -/
def DeductFeeDecorator.deductFrom {σ : Type} (dfd : DeductFeeDecorator σ) (feeTx : FeeTx)
    (feePayer : AccAddress) : AnteDecorator σ :=
  fun ctx tx simulate next w =>
    let w1 := w.log (Event.getAccount feePayer)
    match dfd.ak.GetAccount ctx w1.store feePayer with
    | none => (Result.ret ctx (some (SdkError.ErrUnknownAddress feePayer)), w1)
    | some feePayerAcc =>
      if !feeTx.fee.IsZero then
        let w2 := w1.log (Event.deductFees feePayerAcc feeTx.fee)
        match dfd.bankKeeper.DeductFees ctx w2.store feePayerAcc feeTx.fee with
        | (some err, s) => (Result.ret ctx (some err), ⟨s, w2.trace⟩)
        | (none, s) => next ctx tx simulate ⟨s, w2.trace⟩
      else next ctx tx simulate w1

/-- `DeductFeeDecorator.AnteHandle` (`fee.go` lines 31-88). -/
def DeductFeeDecorator.AnteHandle {σ : Type} (codec : Codec) (dfd : DeductFeeDecorator σ) :
    AnteDecorator σ :=
  fun ctx tx simulate next w =>
    match asFeeTx tx with
    | none => (Result.ret ctx (some (SdkError.ErrTxDecode "Tx must be a FeeTx")), w)
    | some feeTx =>
      let w1 := w.log (Event.getModuleAddress FeeCollectorName)
      match dfd.ak.GetModuleAddress FeeCollectorName with
      | none => (Result.panicked "fee_collector module account has not been set", w1)
      | some _ =>
        match delegatedFeePayer codec tx w1 with
        | (Except.error err, w2) => (Result.ret ctx (some err), w2)
        | (Except.ok (some feePayer), w2) => dfd.deductFrom feeTx feePayer ctx tx simulate next w2
        | (Except.ok none, w2) => dfd.deductFrom feeTx feeTx.feePayer ctx tx simulate next w2

/-! ## The specification's reading of the dispatcher (spec section 4.1 and 4.2) -/

/-- The three chains the specification names. -/
inductive Chain where
  | Standard
  | EVM
  | DelegatedSignature
deriving DecidableEq, Repr

/-- Spec 4.1, steps 1 and 2, in the specification's words: with at least one extension option
the first option's tag selects the EVM chain or the Delegated-Signature chain, any other tag
selects nothing; without extension options the Standard chain is selected. -/
def specSelect (hasExtensionOptions : Bool) (firstTag : String) : Option Chain :=
  if hasExtensionOptions then
    if firstTag = "/ethermint.evm.v1.ExtensionOptionsEthereumTx" then some Chain.EVM
    else if firstTag = "/ethermint.types.v1.ExtensionOptionsWeb3Tx" then
      some Chain.DelegatedSignature
    else none
  else some Chain.Standard

/-- Whether a transaction carries at least one extension option. -/
def hasExtensionOptions (td : TxData) : Bool :=
  match td.extensionOptions with
  | some (_ :: _) => true
  | _ => false

/-- The type tag of the first extension option (the empty tag when there is none). -/
def firstExtensionTag (td : TxData) : String :=
  match td.extensionOptions with
  | some (opt0 :: _) => opt0.typeUrl
  | _ => ""

/-- The decorator list `ante.go` builds for each chain. -/
def Chain.decorators : Chain → List Decorator
  | Chain.Standard => sdkTxChain
  | Chain.EVM => ethereumTxChain
  | Chain.DelegatedSignature => web3TxChain

/-- The EVM chain as the specification lists it (section 4.2): nine steps. -/
def specEVMChain : List Decorator :=
  [ .ante_NewEthSetUpContextDecorator,
    .authante_NewMempoolFeeDecorator,
    .ante_NewEthValidateBasicDecorator,
    .ante_NewEthSigVerificationDecorator,
    .ante_NewEthAccountVerificationDecorator,
    .ante_NewEthNonceVerificationDecorator,
    .ante_NewEthGasConsumeDecorator,
    .ante_NewCanTransferDecorator,
    .ante_NewEthIncrementSenderSequenceDecorator ]

/-- The Delegated-Signature chain as the specification lists it (section 4.2): eleven steps,
the fee step being whichever fee decorator the chain holds. -/
def specDelegatedSignatureChain (fee : Decorator) : List Decorator :=
  [ .authante_NewSetUpContextDecorator,
    .authante_NewMempoolFeeDecorator,
    .authante_NewValidateBasicDecorator,
    .authante_NewTxTimeoutHeightDecorator,
    .authante_NewValidateMemoDecorator,
    .authante_NewConsumeGasForTxSizeDecorator,
    .authante_NewSetPubKeyDecorator,
    .authante_NewValidateSigCountDecorator,
    fee,
    .NewEip712SigVerificationDecorator,
    .authante_NewIncrementSequenceDecorator ]

/-- An instrumented behaviour for the decorators: each one records that it ran and calls
`next` on the unchanged context and transaction. -/
def tracing {σ : Type} (d : Decorator) : AnteDecorator σ :=
  fun ctx tx sim next w => next ctx tx sim (w.log (Event.ran d))

/-- The decorators recorded in the trace of a world, in the order they ran. -/
def stepsRun {σ : Type} (w : World σ) : List Decorator :=
  w.trace.filterMap (fun e => match e with | Event.ran d => some d | _ => none)

/-! ## Concrete inputs -/

/-- A context of a `CheckTx` pass at height 7. -/
def exampleCtx : Context := ⟨7, 0, true⟩

/-- A world without ledger state and with an empty trace. -/
def emptyWorld : World Unit := ⟨(), []⟩

/-- A transaction whose only extension option is tagged as an Ethereum transaction. -/
def ethereumTx : TxData :=
  ⟨some [⟨"/ethermint.evm.v1.ExtensionOptionsEthereumTx", []⟩], none, [1]⟩

/-- A fee-bearing transaction whose only extension option is tagged as a web3 typed
transaction; its first signer is the address `[10]`, its fee ten `aphoton`. -/
def web3Tx : TxData :=
  ⟨some [⟨"/ethermint.types.v1.ExtensionOptionsWeb3Tx", [11]⟩], some ⟨[⟨"aphoton", 10⟩], [10]⟩, [2]⟩

/-- A fee-bearing transaction with an empty list of extension options. -/
def plainTx : TxData :=
  ⟨some [], some ⟨[⟨"aphoton", 10⟩], [10]⟩, [3]⟩

/-- A transaction whose first extension option carries an unrecognised tag. -/
def unknownExtensionTx : TxData :=
  ⟨some [⟨"/cosmos.unknown.v1.Ext", []⟩, ⟨"/ethermint.types.v1.ExtensionOptionsWeb3Tx", []⟩],
    some ⟨[⟨"aphoton", 10⟩], [10]⟩, [4]⟩

/-- The behaviours `base`, except that the decorator of `fee.go` behaves as `h`. -/
def withDeductFee {σ : Type} (base : Decorator → AnteDecorator σ) (h : AnteDecorator σ) :
    Decorator → AnteDecorator σ :=
  fun d => if d = Decorator.NewDeductFeeDecorator then h else base d

/-! ## A concrete ledger and its keepers -/

/-- A ledger: the accounts that exist and the balance of every address per denomination. -/
structure Ledger where
  accounts : List Account
  balance : AccAddress → String → Int

/-- The ledger after `fees` moved from `src` to `dst`: the source is debited, then the
destination is credited. -/
def Ledger.send (l : Ledger) (src dst : AccAddress) (fees : Coins) : Ledger :=
  { accounts := l.accounts
    balance := fun a d =>
      l.balance a d - (if a = src then fees.amountOf d else 0)
        + (if a = dst then fees.amountOf d else 0) }

/-- Whether `addr` holds every coin of `fees`. -/
def Ledger.covers (l : Ledger) (addr : AccAddress) (fees : Coins) : Bool :=
  fees.all (fun c => decide (fees.amountOf c.denom ≤ l.balance addr c.denom))

/-- The address of the fee-collector module account of the concrete ledger. -/
def collectorAddr : AccAddress := [99]

/-- Account keeper of the concrete ledger: the fee collector is configured, and an account is
found under its own address. -/
def ledgerAccountKeeper : AccountKeeper Ledger :=
  { GetModuleAddress := fun name => if name = "fee_collector" then some collectorAddr else none
    GetAccount := fun _ l addr => l.accounts.find? (fun acc => acc.address == addr) }

/-- Bank keeper of the concrete ledger: a transfer service that moves exactly the requested
amount from the account to the fee collector, or fails with insufficient funds (code 5) and
moves nothing. -/
def ledgerBankKeeper : BankKeeper Ledger :=
  { DeductFees := fun _ l acc fees =>
      if l.covers acc.address fees then (none, l.send acc.address collectorAddr fees)
      else (some (SdkError.collaborator 5 "insufficient funds"), l) }

/-- A codec for the examples: an option tagged as web3 typed transaction unpacks to an
`ExtensionOptionsWeb3Tx` whose payer string is read off the value bytes (`[11]`: the string
`"payerB"`, `[12]`: the string `"garbage"`, `[13]`: the string `"collector"`, otherwise empty);
any other option fails to unpack.  `"payerB"` parses to the address `[20]`, `"collector"` to the
address of the fee collector, nothing else parses. -/
def exampleCodec : Codec :=
  { UnpackAny := fun opt =>
      if opt.typeUrl = "/ethermint.types.v1.ExtensionOptionsWeb3Tx" then
        some (ExtensionOptionsWeb3TxI.web3Tx
          (if opt.value = [11] then "payerB" else if opt.value = [12] then "garbage"
            else if opt.value = [13] then "collector" else ""))
      else none
    AccAddressFromBech32 := fun str =>
      if str = "payerB" then some [20] else if str = "collector" then some collectorAddr
      else none }

/-- The decorator of `fee.go` over the concrete ledger. -/
def ledgerDeductFee : DeductFeeDecorator Ledger :=
  NewDeductFeeDecorator ledgerAccountKeeper ledgerBankKeeper

/-- A ledger with signer A (address `[10]`, balance 100), payer B (address `[20]`, balance 50)
and the fee collector (balance 30), all in `aphoton`. -/
def exampleLedger : Ledger :=
  { accounts := [⟨[10], 0⟩, ⟨[20], 0⟩, ⟨collectorAddr, 0⟩]
    balance := fun a d =>
      if d = "aphoton" then
        (if a = [10] then 100 else if a = [20] then 50 else if a = collectorAddr then 30 else 0)
      else 0 }

/-- The concrete ledger with an empty trace. -/
def ledgerWorld : World Ledger := ⟨exampleLedger, []⟩

/-- A fee-bearing transaction signed by A whose web3 extension names an unparsable payer. -/
def badPayerTx : TxData :=
  ⟨some [⟨"/ethermint.types.v1.ExtensionOptionsWeb3Tx", [12]⟩], some ⟨[⟨"aphoton", 10⟩], [10]⟩, [5]⟩

/-- A fee-bearing transaction signed by A whose web3 extension names the fee collector itself
as payer. -/
def collectorPaysTx : TxData :=
  ⟨some [⟨"/ethermint.types.v1.ExtensionOptionsWeb3Tx", [13]⟩], some ⟨[⟨"aphoton", 10⟩], [10]⟩, [6]⟩

/-- A continuation that returns the context without error and touches nothing. -/
def doneHandler {σ : Type} : AnteHandler σ :=
  fun ctx _ _ w => (Result.ret ctx none, w)

/-! ## Vocabulary for statements about one decorator -/

/-- The run of decorator `d` from world `w` issues exactly the events `own`, leaves the store
`s`, and then hands over to `next` on the context, transaction and flag it received: whatever
`next` is, the result is that of `next` on the world with store `s` and the trace extended by
`own`. -/
def Forwards {σ : Type} (d : AnteDecorator σ) (ctx : Context) (tx : Tx) (sim : Bool)
    (w : World σ) (own : List Event) (s : σ) : Prop :=
  ∀ next : AnteHandler σ, d ctx tx sim next w = next ctx tx sim ⟨s, w.trace ++ own⟩

/-- The run of decorator `d` from world `w` issues exactly the events `own`, leaves the store
`s`, and ends with the result `r` of its own: whatever `next` is, it is not called. -/
def Stops {σ : Type} (d : AnteDecorator σ) (ctx : Context) (tx : Tx) (sim : Bool)
    (w : World σ) (own : List Event) (s : σ) (r : Result) : Prop :=
  ∀ next : AnteHandler σ, d ctx tx sim next w = (r, ⟨s, w.trace ++ own⟩)

/-- The run of decorator `d` from world `w` issues exactly the events `own` and leaves the
store `s` before it forwards or stops. -/
def Issues {σ : Type} (d : AnteDecorator σ) (ctx : Context) (tx : Tx) (sim : Bool)
    (w : World σ) (own : List Event) (s : σ) : Prop :=
  Forwards d ctx tx sim w own s ∨ ∃ r, Stops d ctx tx sim w own s r

/-- The transfer requests among a list of events. -/
def transfersOf (evs : List Event) : List (Account × Coins) :=
  evs.filterMap (fun e => match e with | Event.deductFees acc fees => some (acc, fees) | _ => none)

/-- The transaction carries no fee delegation as `fee.go` reads it: no extension option at
all, or a first option that unpacks to something other than an `ExtensionOptionsWeb3Tx`, or to an
`ExtensionOptionsWeb3Tx` with an empty payer string. -/
def NoDelegation (codec : Codec) (td : TxData) : Prop :=
  hasExtensionOptions td = false ∨
    ∃ opt0 rest, td.extensionOptions = some (opt0 :: rest) ∧
      (codec.UnpackAny opt0 = some ExtensionOptionsWeb3TxI.notWeb3Tx ∨
        ∃ payer, codec.UnpackAny opt0 = some (ExtensionOptionsWeb3TxI.web3Tx payer) ∧
          payer.length = 0)

/-- A transfer service that moves exactly the requested amount: whenever `DeductFees` reports
no error, every balance is the one before, less the fees at the address of the paying account,
plus the fees at the address of the fee collector. -/
def MovesExactly {σ : Type} (bk : BankKeeper σ) (balance : σ → AccAddress → String → Int)
    (collector : AccAddress) : Prop :=
  ∀ (ctx : Context) (s : σ) (acc : Account) (fees : Coins) (s1 : σ),
    bk.DeductFees ctx s acc fees = (none, s1) →
    ∀ (a : AccAddress) (d : String),
      balance s1 a d = balance s a d - (if a = acc.address then fees.amountOf d else 0)
        + (if a = collector then fees.amountOf d else 0)

/-! ## Further concrete inputs -/

/-- The traced behaviours, except that decorator `d0` panics with the value `v` (a nil
dereference, an exhausted gas meter) instead of calling `next`. -/
def faultyAt {σ : Type} (d0 : Decorator) (v : String) : Decorator → AnteDecorator σ :=
  fun d => if d = d0 then (fun _ _ _ _ w => (Result.panicked v, w.log (Event.ran d))) else tracing d

/-- An account keeper of the concrete ledger on a node without fee-collector module account. -/
def unconfiguredAccountKeeper : AccountKeeper Ledger :=
  { GetModuleAddress := fun _ => none
    GetAccount := fun _ l addr => l.accounts.find? (fun acc => acc.address == addr) }

/-- The decorator of `fee.go` on the node without fee collector. -/
def unconfiguredDeductFee : DeductFeeDecorator Ledger :=
  NewDeductFeeDecorator unconfiguredAccountKeeper ledgerBankKeeper

/-- A fee-bearing transaction without extension options whose first signer `[77]` has no
account in the concrete ledger; its fee is zero. -/
def strangerTx : TxData :=
  ⟨some [], some ⟨[⟨"aphoton", 0⟩], [77]⟩, [7]⟩

/-- A fee-bearing transaction without extension options, signed by A, whose fee of 1000
exceeds the balance of A. -/
def greedyTx : TxData :=
  ⟨none, some ⟨[⟨"aphoton", 1000⟩], [10]⟩, [8]⟩

/-- The web3-tagged transaction `web3Tx` with a second extension option appended, which names
the fee collector as payer. -/
def web3TxWithExtra : TxData :=
  ⟨some [⟨"/ethermint.types.v1.ExtensionOptionsWeb3Tx", [11]⟩,
      ⟨"/ethermint.types.v1.ExtensionOptionsWeb3Tx", [13]⟩],
    some ⟨[⟨"aphoton", 10⟩], [10]⟩, [2]⟩

/-! ## Theorems: the dispatcher of `ante.go` -/

/-- Without a panic the deferred `Recover` leaves the results of the body untouched. -/
theorem Recover_ret {σ : Type} (c : Context) (e : Option SdkError) (w : World σ) :
    Recover (Result.ret c e, w) = (Result.ret c e, w) := rfl

/-- A non-empty chain is the terminated chain. -/
theorem ChainAnteDecorators_cons {σ : Type} (d : AnteDecorator σ) (ds : List (AnteDecorator σ)) :
    ChainAnteDecorators (d :: ds) = chainFrom (d :: ds ++ [Terminator]) := rfl

/-- The handler on a transaction whose first extension option has the Ethereum tag. -/
theorem NewAnteHandler_ethereumTx {σ : Type} (impl : Decorator → AnteDecorator σ) (ctx : Context)
    (td : TxData) (sim : Bool) (w : World σ) (opt0 : Any) (rest : List Any)
    (hopts : td.extensionOptions = some (opt0 :: rest))
    (htag : opt0.typeUrl = ethereumTxTypeURL) :
    NewAnteHandler impl ctx (some td) sim w
      = Recover (ChainAnteDecorators (ethereumTxChain.map impl) ctx (some td) sim w) := by
  simp [NewAnteHandler, anteHandlerBody, getExtensionOptions, hopts, htag]

/-- The handler on a transaction whose first extension option has the web3 tag. -/
theorem NewAnteHandler_web3Tx {σ : Type} (impl : Decorator → AnteDecorator σ) (ctx : Context)
    (td : TxData) (sim : Bool) (w : World σ) (opt0 : Any) (rest : List Any)
    (hopts : td.extensionOptions = some (opt0 :: rest))
    (htag : opt0.typeUrl = web3TxTypeURL) :
    NewAnteHandler impl ctx (some td) sim w
      = Recover (ChainAnteDecorators (web3TxChain.map impl) ctx (some td) sim w) := by
  have hne : ¬ (web3TxTypeURL = ethereumTxTypeURL) := by decide
  simp [NewAnteHandler, anteHandlerBody, getExtensionOptions, hopts, htag, hne]

/-- The handler on a transaction without extension options. -/
theorem NewAnteHandler_sdkTx {σ : Type} (impl : Decorator → AnteDecorator σ) (ctx : Context)
    (td : TxData) (sim : Bool) (w : World σ) (hno : hasExtensionOptions td = false) :
    NewAnteHandler impl ctx (some td) sim w
      = Recover (ChainAnteDecorators (sdkTxChain.map impl) ctx (some td) sim w) := by
  unfold hasExtensionOptions at hno
  cases hopts : td.extensionOptions with
  | none => simp [NewAnteHandler, anteHandlerBody, getExtensionOptions, hopts, handleSdkTx]
  | some opts =>
    cases opts with
    | nil => simp [NewAnteHandler, anteHandlerBody, getExtensionOptions, hopts, handleSdkTx]
    | cons o r => simp [hopts] at hno

/-- A run of a traced chain records every decorator of the chain, in order, and then returns
the context without error. -/
theorem chainFrom_tracing {σ : Type} (ds : List Decorator) (ctx : Context) (tx : Tx) (sim : Bool)
    (w : World σ) :
    chainFrom (ds.map tracing ++ [Terminator]) ctx tx sim w
      = (Result.ret ctx none, ⟨w.store, w.trace ++ ds.map Event.ran⟩) := by
  induction ds generalizing w with
  | nil => simp [chainFrom, Terminator]
  | cons d ds ih => simp [chainFrom, tracing, World.log, ih]

/-- The steps recorded after a run that appended the events of `ds` to the trace. -/
theorem stepsRun_append_ran {σ : Type} (w : World σ) (ds : List Decorator) :
    stepsRun (⟨w.store, w.trace ++ ds.map Event.ran⟩ : World σ) = stepsRun w ++ ds := by
  simp only [stepsRun, List.filterMap_append]
  congr 1
  induction ds with
  | nil => rfl
  | cons d ds ih => simp [List.filterMap_cons, ih]

/-- C1. For every (non-nil) transaction, context and simulate flag: whenever the specification's
selection function, applied to (extension options present?, tag of the first option), selects a
chain, the handler returned by `NewAnteHandler` runs the decorator list `ante.go` builds for that
chain (Ethereum tag: EVM chain; web3 tag: Delegated-Signature chain; no extension options or no
such capability: Standard chain), under the deferred `Recover`; and when that chain returns
(no panic), the handler returns exactly the context and error the chain returned. -/
theorem C1_chain_selection {σ : Type} (impl : Decorator → AnteDecorator σ) (ctx : Context)
    (td : TxData) (sim : Bool) (w : World σ) (chain : Chain)
    (hsel : specSelect (hasExtensionOptions td) (firstExtensionTag td) = some chain) :
    NewAnteHandler impl ctx (some td) sim w
        = Recover (ChainAnteDecorators (chain.decorators.map impl) ctx (some td) sim w)
      ∧ ∀ (c : Context) (e : Option SdkError) (w1 : World σ),
          ChainAnteDecorators (chain.decorators.map impl) ctx (some td) sim w = (Result.ret c e, w1) →
          NewAnteHandler impl ctx (some td) sim w = (Result.ret c e, w1) := by
  have key : NewAnteHandler impl ctx (some td) sim w
      = Recover (ChainAnteDecorators (chain.decorators.map impl) ctx (some td) sim w) := by
    cases hopts : td.extensionOptions with
    | none =>
      have hno : hasExtensionOptions td = false := by simp [hasExtensionOptions, hopts]
      simp [specSelect, hno] at hsel
      subst hsel
      exact NewAnteHandler_sdkTx impl ctx td sim w hno
    | some opts =>
      cases opts with
      | nil =>
        have hno : hasExtensionOptions td = false := by simp [hasExtensionOptions, hopts]
        simp [specSelect, hno] at hsel
        subst hsel
        exact NewAnteHandler_sdkTx impl ctx td sim w hno
      | cons opt0 rest =>
        have hyes : hasExtensionOptions td = true := by simp [hasExtensionOptions, hopts]
        have htag : firstExtensionTag td = opt0.typeUrl := by simp [firstExtensionTag, hopts]
        rw [hyes, htag] at hsel
        unfold specSelect at hsel
        by_cases h1 : opt0.typeUrl = "/ethermint.evm.v1.ExtensionOptionsEthereumTx"
        · simp [h1] at hsel
          subst hsel
          exact NewAnteHandler_ethereumTx impl ctx td sim w opt0 rest hopts h1
        · by_cases h2 : opt0.typeUrl = "/ethermint.types.v1.ExtensionOptionsWeb3Tx"
          · simp [h1, h2] at hsel
            subst hsel
            exact NewAnteHandler_web3Tx impl ctx td sim w opt0 rest hopts h2
          · simp [h1, h2] at hsel
  refine ⟨key, ?_⟩
  intro c e w1 hrun
  rw [key, hrun]
  rfl

/-- Witness of C1: the web3-tagged transaction selects the Delegated-Signature chain. -/
theorem C1_chain_selection_witness :
    specSelect (hasExtensionOptions web3Tx) (firstExtensionTag web3Tx)
        = some Chain.DelegatedSignature
      ∧ (NewAnteHandler tracing exampleCtx (some web3Tx) false emptyWorld
          = Recover (ChainAnteDecorators (Chain.DelegatedSignature.decorators.map tracing)
              exampleCtx (some web3Tx) false emptyWorld)
        ∧ ∀ (c : Context) (e : Option SdkError) (w1 : World Unit),
          ChainAnteDecorators (Chain.DelegatedSignature.decorators.map tracing)
              exampleCtx (some web3Tx) false emptyWorld = (Result.ret c e, w1) →
          NewAnteHandler tracing exampleCtx (some web3Tx) false emptyWorld = (Result.ret c e, w1)) :=
  ⟨by decide, C1_chain_selection tracing exampleCtx web3Tx false emptyWorld
    Chain.DelegatedSignature (by decide)⟩

/-- C2. A transaction whose extension-option list is non-empty and whose first option's tag is
neither the Ethereum tag nor the web3 tag is rejected with `ErrUnknownExtensionOptions` carrying
that tag (propagated through `stacktrace`), together with the input context; the world (ledger
store and trace) is returned as it was received and the result is the same whatever the
decorators do, so no decorator of any chain ran. -/
theorem C2_unknown_extension_rejected {σ : Type} (impl : Decorator → AnteDecorator σ)
    (ctx : Context) (td : TxData) (sim : Bool) (w : World σ) (opt0 : Any) (rest : List Any)
    (hopts : td.extensionOptions = some (opt0 :: rest))
    (h1 : opt0.typeUrl ≠ ethereumTxTypeURL) (h2 : opt0.typeUrl ≠ web3TxTypeURL) :
    NewAnteHandler impl ctx (some td) sim w
      = (Result.ret ctx (some (SdkError.propagated
            (SdkError.ErrUnknownExtensionOptions opt0.typeUrl)
            "rejecting tx with unsupported extension option")), w) := by
  simp [NewAnteHandler, anteHandlerBody, getExtensionOptions, hopts, h1, h2, Recover]

/-- Witness of C2 on a transaction tagged `/cosmos.unknown.v1.Ext`, with traced decorators:
nothing is recorded. -/
theorem C2_unknown_extension_rejected_witness :
    unknownExtensionTx.extensionOptions
        = some ((⟨"/cosmos.unknown.v1.Ext", []⟩ : Any)
            :: [⟨"/ethermint.types.v1.ExtensionOptionsWeb3Tx", []⟩])
      ∧ (⟨"/cosmos.unknown.v1.Ext", []⟩ : Any).typeUrl ≠ ethereumTxTypeURL
      ∧ (⟨"/cosmos.unknown.v1.Ext", []⟩ : Any).typeUrl ≠ web3TxTypeURL
      ∧ NewAnteHandler tracing exampleCtx (some unknownExtensionTx) true emptyWorld
          = (Result.ret exampleCtx (some (SdkError.propagated
              (SdkError.ErrUnknownExtensionOptions "/cosmos.unknown.v1.Ext")
              "rejecting tx with unsupported extension option")), emptyWorld) :=
  ⟨rfl, by decide, by decide,
    C2_unknown_extension_rejected tracing exampleCtx unknownExtensionTx true emptyWorld
      ⟨"/cosmos.unknown.v1.Ext", []⟩ [⟨"/ethermint.types.v1.ExtensionOptionsWeb3Tx", []⟩]
      rfl (by decide) (by decide)⟩

/-- Counterexample to C3 as stated: an instrumented run of the handler on the Ethereum-tagged
transaction executes eleven decorators, among them the timeout-height check and the memo
validation, which the nine steps of the specification do not list. -/
theorem C3_evm_chain_not_nine_steps :
    stepsRun (NewAnteHandler tracing exampleCtx (some ethereumTx) false emptyWorld).2
        ≠ specEVMChain
      ∧ (stepsRun (NewAnteHandler tracing exampleCtx (some ethereumTx) false emptyWorld).2).length
        = 11
      ∧ Decorator.authante_NewTxTimeoutHeightDecorator
        ∈ stepsRun (NewAnteHandler tracing exampleCtx (some ethereumTx) false emptyWorld).2
      ∧ Decorator.authante_NewValidateMemoDecorator
        ∈ stepsRun (NewAnteHandler tracing exampleCtx (some ethereumTx) false emptyWorld).2 := by
  decide

/-- C3 (amended). The chain built for an Ethereum-tagged transaction is exactly the following
eleven decorators in this order and no others: EVM context setup, mempool-fee-floor check,
timeout-height check, memo validation, EVM structural validation, ECDSA signature verification,
sender-account verification, nonce verification, EVM gas consumption, transfer-capability check,
EVM sequence increment (closed by the terminator); an instrumented run executes exactly these
eleven, in this order. -/
theorem C3_evm_chain_eleven_steps {σ : Type} (impl : Decorator → AnteDecorator σ) (ctx : Context)
    (td : TxData) (sim : Bool) (w : World σ) (opt0 : Any) (rest : List Any)
    (hopts : td.extensionOptions = some (opt0 :: rest))
    (htag : opt0.typeUrl = ethereumTxTypeURL) :
    NewAnteHandler impl ctx (some td) sim w
        = Recover (chainFrom
            [ impl .ante_NewEthSetUpContextDecorator,
              impl .authante_NewMempoolFeeDecorator,
              impl .authante_NewTxTimeoutHeightDecorator,
              impl .authante_NewValidateMemoDecorator,
              impl .ante_NewEthValidateBasicDecorator,
              impl .ante_NewEthSigVerificationDecorator,
              impl .ante_NewEthAccountVerificationDecorator,
              impl .ante_NewEthNonceVerificationDecorator,
              impl .ante_NewEthGasConsumeDecorator,
              impl .ante_NewCanTransferDecorator,
              impl .ante_NewEthIncrementSenderSequenceDecorator,
              Terminator ] ctx (some td) sim w)
      ∧ stepsRun (NewAnteHandler tracing ctx (some td) sim w).2
        = stepsRun w ++
            [ .ante_NewEthSetUpContextDecorator,
              .authante_NewMempoolFeeDecorator,
              .authante_NewTxTimeoutHeightDecorator,
              .authante_NewValidateMemoDecorator,
              .ante_NewEthValidateBasicDecorator,
              .ante_NewEthSigVerificationDecorator,
              .ante_NewEthAccountVerificationDecorator,
              .ante_NewEthNonceVerificationDecorator,
              .ante_NewEthGasConsumeDecorator,
              .ante_NewCanTransferDecorator,
              .ante_NewEthIncrementSenderSequenceDecorator ] := by
  constructor
  · rw [NewAnteHandler_ethereumTx impl ctx td sim w opt0 rest hopts htag]
    rfl
  · rw [NewAnteHandler_ethereumTx tracing ctx td sim w opt0 rest hopts htag]
    have h := chainFrom_tracing ethereumTxChain ctx (some td) sim w
    rw [show ChainAnteDecorators (ethereumTxChain.map tracing)
          = chainFrom (ethereumTxChain.map tracing ++ [Terminator]) from rfl, h, Recover_ret]
    exact stepsRun_append_ran w ethereumTxChain

/-- Witness of the amended C3 on the Ethereum-tagged transaction. -/
theorem C3_evm_chain_eleven_steps_witness :
    ethereumTx.extensionOptions
        = some ((⟨"/ethermint.evm.v1.ExtensionOptionsEthereumTx", []⟩ : Any) :: [])
      ∧ (⟨"/ethermint.evm.v1.ExtensionOptionsEthereumTx", []⟩ : Any).typeUrl = ethereumTxTypeURL
      ∧ stepsRun (NewAnteHandler tracing exampleCtx (some ethereumTx) true emptyWorld).2
        = stepsRun emptyWorld ++
            [ .ante_NewEthSetUpContextDecorator,
              .authante_NewMempoolFeeDecorator,
              .authante_NewTxTimeoutHeightDecorator,
              .authante_NewValidateMemoDecorator,
              .ante_NewEthValidateBasicDecorator,
              .ante_NewEthSigVerificationDecorator,
              .ante_NewEthAccountVerificationDecorator,
              .ante_NewEthNonceVerificationDecorator,
              .ante_NewEthGasConsumeDecorator,
              .ante_NewCanTransferDecorator,
              .ante_NewEthIncrementSenderSequenceDecorator ] :=
  ⟨rfl, rfl,
    (C3_evm_chain_eleven_steps tracing exampleCtx ethereumTx true emptyWorld
      ⟨"/ethermint.evm.v1.ExtensionOptionsEthereumTx", []⟩ [] rfl rfl).2⟩

/-- Counterexample to C4 as stated: an instrumented run of the handler on the web3-tagged
transaction executes twelve decorators; the signature-gas consumption, which runs between the
fee step and the typed-data signature verification, is missing from the eleven steps of the
specification (whichever decorator is taken for its fee step). -/
theorem C4_web3_chain_not_eleven_steps :
    (∀ fee : Decorator,
      stepsRun (NewAnteHandler tracing exampleCtx (some web3Tx) false emptyWorld).2
        ≠ specDelegatedSignatureChain fee)
      ∧ (stepsRun (NewAnteHandler tracing exampleCtx (some web3Tx) false emptyWorld).2).length = 12
      ∧ Decorator.authante_NewSigGasConsumeDecorator
        ∈ stepsRun (NewAnteHandler tracing exampleCtx (some web3Tx) false emptyWorld).2 := by
  refine ⟨fun fee h => ?_, by decide, by decide⟩
  have h12 : (stepsRun
      (NewAnteHandler tracing exampleCtx (some web3Tx) false emptyWorld).2).length = 12 := by
    decide
  rw [h] at h12
  simp [specDelegatedSignatureChain] at h12

/-- C4 (amended). The chain built for a web3-tagged transaction is exactly the following
twelve decorators in this order and no others: context setup, mempool-fee-floor check,
structural validation, timeout-height check, memo validation, gas-for-size consumption,
public-key binding, signature-count limit, fee deduction, signature-gas consumption, typed-data
(EIP-712) signature verification, sequence increment (closed by the terminator); an
instrumented run executes exactly these twelve, in this order. -/
theorem C4_web3_chain_twelve_steps {σ : Type} (impl : Decorator → AnteDecorator σ) (ctx : Context)
    (td : TxData) (sim : Bool) (w : World σ) (opt0 : Any) (rest : List Any)
    (hopts : td.extensionOptions = some (opt0 :: rest))
    (htag : opt0.typeUrl = web3TxTypeURL) :
    NewAnteHandler impl ctx (some td) sim w
        = Recover (chainFrom
            [ impl .authante_NewSetUpContextDecorator,
              impl .authante_NewMempoolFeeDecorator,
              impl .authante_NewValidateBasicDecorator,
              impl .authante_NewTxTimeoutHeightDecorator,
              impl .authante_NewValidateMemoDecorator,
              impl .authante_NewConsumeGasForTxSizeDecorator,
              impl .authante_NewSetPubKeyDecorator,
              impl .authante_NewValidateSigCountDecorator,
              impl .authante_NewDeductFeeDecorator,
              impl .authante_NewSigGasConsumeDecorator,
              impl .NewEip712SigVerificationDecorator,
              impl .authante_NewIncrementSequenceDecorator,
              Terminator ] ctx (some td) sim w)
      ∧ stepsRun (NewAnteHandler tracing ctx (some td) sim w).2
        = stepsRun w ++
            [ .authante_NewSetUpContextDecorator,
              .authante_NewMempoolFeeDecorator,
              .authante_NewValidateBasicDecorator,
              .authante_NewTxTimeoutHeightDecorator,
              .authante_NewValidateMemoDecorator,
              .authante_NewConsumeGasForTxSizeDecorator,
              .authante_NewSetPubKeyDecorator,
              .authante_NewValidateSigCountDecorator,
              .authante_NewDeductFeeDecorator,
              .authante_NewSigGasConsumeDecorator,
              .NewEip712SigVerificationDecorator,
              .authante_NewIncrementSequenceDecorator ] := by
  constructor
  · rw [NewAnteHandler_web3Tx impl ctx td sim w opt0 rest hopts htag]
    rfl
  · rw [NewAnteHandler_web3Tx tracing ctx td sim w opt0 rest hopts htag]
    have h := chainFrom_tracing web3TxChain ctx (some td) sim w
    rw [show ChainAnteDecorators (web3TxChain.map tracing)
          = chainFrom (web3TxChain.map tracing ++ [Terminator]) from rfl, h, Recover_ret]
    exact stepsRun_append_ran w web3TxChain

/-- Witness of the amended C4 on the web3-tagged transaction. -/
theorem C4_web3_chain_twelve_steps_witness :
    web3Tx.extensionOptions
        = some ((⟨"/ethermint.types.v1.ExtensionOptionsWeb3Tx", [11]⟩ : Any) :: [])
      ∧ (⟨"/ethermint.types.v1.ExtensionOptionsWeb3Tx", [11]⟩ : Any).typeUrl = web3TxTypeURL
      ∧ stepsRun (NewAnteHandler tracing exampleCtx (some web3Tx) true emptyWorld).2
        = stepsRun emptyWorld ++
            [ .authante_NewSetUpContextDecorator,
              .authante_NewMempoolFeeDecorator,
              .authante_NewValidateBasicDecorator,
              .authante_NewTxTimeoutHeightDecorator,
              .authante_NewValidateMemoDecorator,
              .authante_NewConsumeGasForTxSizeDecorator,
              .authante_NewSetPubKeyDecorator,
              .authante_NewValidateSigCountDecorator,
              .authante_NewDeductFeeDecorator,
              .authante_NewSigGasConsumeDecorator,
              .NewEip712SigVerificationDecorator,
              .authante_NewIncrementSequenceDecorator ] :=
  ⟨rfl, rfl,
    (C4_web3_chain_twelve_steps tracing exampleCtx web3Tx true emptyWorld
      ⟨"/ethermint.types.v1.ExtensionOptionsWeb3Tx", [11]⟩ [] rfl rfl).2⟩

/-- C5. The chain built for a transaction with no extension options (an empty list, or no
extension-options capability) is exactly the following fourteen decorators in this order:
context setup, reject-if-has-extensions, mempool-fee-floor check, structural validation,
timeout-height check, memo validation, inter-chain packet validation, gas-for-size consumption,
public-key binding, signature-count limit, fee deduction, signature-gas consumption, native
signature verification, sequence increment (closed by the terminator); the list is the same for
every context, transaction content and simulate flag, and an instrumented run executes exactly
these fourteen, in this order. -/
theorem C5_standard_chain_fourteen_steps {σ : Type} (impl : Decorator → AnteDecorator σ)
    (ctx : Context) (td : TxData) (sim : Bool) (w : World σ)
    (hno : hasExtensionOptions td = false) :
    NewAnteHandler impl ctx (some td) sim w
        = Recover (chainFrom
            [ impl .authante_NewSetUpContextDecorator,
              impl .authante_NewRejectExtensionOptionsDecorator,
              impl .authante_NewMempoolFeeDecorator,
              impl .authante_NewValidateBasicDecorator,
              impl .authante_NewTxTimeoutHeightDecorator,
              impl .authante_NewValidateMemoDecorator,
              impl .ibcante_NewAnteDecorator,
              impl .authante_NewConsumeGasForTxSizeDecorator,
              impl .authante_NewSetPubKeyDecorator,
              impl .authante_NewValidateSigCountDecorator,
              impl .authante_NewDeductFeeDecorator,
              impl .authante_NewSigGasConsumeDecorator,
              impl .authante_NewSigVerificationDecorator,
              impl .authante_NewIncrementSequenceDecorator,
              Terminator ] ctx (some td) sim w)
      ∧ stepsRun (NewAnteHandler tracing ctx (some td) sim w).2
        = stepsRun w ++
            [ .authante_NewSetUpContextDecorator,
              .authante_NewRejectExtensionOptionsDecorator,
              .authante_NewMempoolFeeDecorator,
              .authante_NewValidateBasicDecorator,
              .authante_NewTxTimeoutHeightDecorator,
              .authante_NewValidateMemoDecorator,
              .ibcante_NewAnteDecorator,
              .authante_NewConsumeGasForTxSizeDecorator,
              .authante_NewSetPubKeyDecorator,
              .authante_NewValidateSigCountDecorator,
              .authante_NewDeductFeeDecorator,
              .authante_NewSigGasConsumeDecorator,
              .authante_NewSigVerificationDecorator,
              .authante_NewIncrementSequenceDecorator ] := by
  constructor
  · rw [NewAnteHandler_sdkTx impl ctx td sim w hno]
    rfl
  · rw [NewAnteHandler_sdkTx tracing ctx td sim w hno]
    have h := chainFrom_tracing sdkTxChain ctx (some td) sim w
    rw [show ChainAnteDecorators (sdkTxChain.map tracing)
          = chainFrom (sdkTxChain.map tracing ++ [Terminator]) from rfl, h, Recover_ret]
    exact stepsRun_append_ran w sdkTxChain

/-- Witness of C5 on the transaction with an empty extension-option list. -/
theorem C5_standard_chain_fourteen_steps_witness :
    hasExtensionOptions plainTx = false
      ∧ stepsRun (NewAnteHandler tracing exampleCtx (some plainTx) false emptyWorld).2
        = stepsRun emptyWorld ++
            [ .authante_NewSetUpContextDecorator,
              .authante_NewRejectExtensionOptionsDecorator,
              .authante_NewMempoolFeeDecorator,
              .authante_NewValidateBasicDecorator,
              .authante_NewTxTimeoutHeightDecorator,
              .authante_NewValidateMemoDecorator,
              .ibcante_NewAnteDecorator,
              .authante_NewConsumeGasForTxSizeDecorator,
              .authante_NewSetPubKeyDecorator,
              .authante_NewValidateSigCountDecorator,
              .authante_NewDeductFeeDecorator,
              .authante_NewSigGasConsumeDecorator,
              .authante_NewSigVerificationDecorator,
              .authante_NewIncrementSequenceDecorator ] :=
  ⟨rfl, (C5_standard_chain_fourteen_steps tracing exampleCtx plainTx false emptyWorld rfl).2⟩

/-! ## Theorems: the fee decorator of `fee.go` -/

/-- Payer resolution when the first extension option names a payer that parses. -/
theorem delegatedFeePayer_delegated {σ : Type} (codec : Codec) (td : TxData) (w : World σ)
    (opt0 : Any) (rest : List Any) (payer : String) (P : AccAddress)
    (hopts : td.extensionOptions = some (opt0 :: rest))
    (hunpack : codec.UnpackAny opt0 = some (ExtensionOptionsWeb3TxI.web3Tx payer))
    (hlen : 0 < payer.length) (hparse : codec.AccAddressFromBech32 payer = some P) :
    delegatedFeePayer codec (some td) w
      = (Except.ok (some P),
          ⟨w.store, w.trace ++ [Event.unpackAny opt0, Event.accAddressFromBech32 payer]⟩) := by
  simp [delegatedFeePayer, getExtensionOptions, hopts, hunpack, hlen, hparse, World.log]

/-- Payer resolution when the first extension option names a payer that does not parse. -/
theorem delegatedFeePayer_invalid {σ : Type} (codec : Codec) (td : TxData) (w : World σ)
    (opt0 : Any) (rest : List Any) (payer : String)
    (hopts : td.extensionOptions = some (opt0 :: rest))
    (hunpack : codec.UnpackAny opt0 = some (ExtensionOptionsWeb3TxI.web3Tx payer))
    (hlen : 0 < payer.length) (hparse : codec.AccAddressFromBech32 payer = none) :
    delegatedFeePayer codec (some td) w
      = (Except.error (SdkError.ErrInvalidAddress payer),
          ⟨w.store, w.trace ++ [Event.unpackAny opt0, Event.accAddressFromBech32 payer]⟩) := by
  simp [delegatedFeePayer, getExtensionOptions, hopts, hunpack, hlen, hparse, World.log]

/-- Payer resolution without delegation: no payer is set, and at most the first option was
unpacked. -/
theorem delegatedFeePayer_none {σ : Type} (codec : Codec) (td : TxData)
    (hno : NoDelegation codec td) :
    ∃ pre : List Event, (∀ e ∈ pre, ∃ opt, e = Event.unpackAny opt) ∧
      ∀ w : World σ, delegatedFeePayer codec (some td) w
        = (Except.ok none, ⟨w.store, w.trace ++ pre⟩) := by
  rcases hno with hno | ⟨opt0, rest, hopts, hcase⟩
  · refine ⟨[], by simp, fun w => ?_⟩
    unfold hasExtensionOptions at hno
    cases hopts : td.extensionOptions with
    | none => simp [delegatedFeePayer, getExtensionOptions, hopts]
    | some opts =>
      cases opts with
      | nil => simp [delegatedFeePayer, getExtensionOptions, hopts]
      | cons o r => simp [hopts] at hno
  · refine ⟨[Event.unpackAny opt0], by simp, fun w => ?_⟩
    rcases hcase with hother | ⟨payer, hunpack, hlen⟩
    · simp [delegatedFeePayer, getExtensionOptions, hopts, hother, World.log]
    · simp [delegatedFeePayer, getExtensionOptions, hopts, hunpack, hlen, World.log]

/-- The payer has no account: the step stops after the lookup. -/
theorem deductFrom_noAccount {σ : Type} (dfd : DeductFeeDecorator σ) (feeTx : FeeTx)
    (p : AccAddress) (ctx : Context) (tx : Tx) (sim : Bool) (w : World σ)
    (hacc : dfd.ak.GetAccount ctx w.store p = none) :
    Stops (dfd.deductFrom feeTx p) ctx tx sim w [Event.getAccount p] w.store
      (Result.ret ctx (some (SdkError.ErrUnknownAddress p))) := by
  intro next
  simp [DeductFeeDecorator.deductFrom, World.log, hacc]

/-- The fee is zero: the step forwards after the lookup, without a transfer. -/
theorem deductFrom_zeroFee {σ : Type} (dfd : DeductFeeDecorator σ) (feeTx : FeeTx)
    (p : AccAddress) (ctx : Context) (tx : Tx) (sim : Bool) (w : World σ) (acc : Account)
    (hacc : dfd.ak.GetAccount ctx w.store p = some acc) (hzero : feeTx.fee.IsZero = true) :
    Forwards (dfd.deductFrom feeTx p) ctx tx sim w [Event.getAccount p] w.store := by
  intro next
  simp [DeductFeeDecorator.deductFrom, World.log, hacc, hzero]

/-- The transfer fails: the step stops with the error of the transfer service. -/
theorem deductFrom_failed {σ : Type} (dfd : DeductFeeDecorator σ) (feeTx : FeeTx)
    (p : AccAddress) (ctx : Context) (tx : Tx) (sim : Bool) (w : World σ) (acc : Account)
    (err : SdkError) (s : σ)
    (hacc : dfd.ak.GetAccount ctx w.store p = some acc) (hzero : feeTx.fee.IsZero = false)
    (hpay : dfd.bankKeeper.DeductFees ctx w.store acc feeTx.fee = (some err, s)) :
    Stops (dfd.deductFrom feeTx p) ctx tx sim w
      [Event.getAccount p, Event.deductFees acc feeTx.fee] s (Result.ret ctx (some err)) := by
  intro next
  simp [DeductFeeDecorator.deductFrom, World.log, hacc, hzero, hpay]

/-- The transfer succeeds: the step forwards with the store the transfer service left. -/
theorem deductFrom_paid {σ : Type} (dfd : DeductFeeDecorator σ) (feeTx : FeeTx)
    (p : AccAddress) (ctx : Context) (tx : Tx) (sim : Bool) (w : World σ) (acc : Account)
    (s : σ)
    (hacc : dfd.ak.GetAccount ctx w.store p = some acc) (hzero : feeTx.fee.IsZero = false)
    (hpay : dfd.bankKeeper.DeductFees ctx w.store acc feeTx.fee = (none, s)) :
    Forwards (dfd.deductFrom feeTx p) ctx tx sim w
      [Event.getAccount p, Event.deductFees acc feeTx.fee] s := by
  intro next
  simp [DeductFeeDecorator.deductFrom, World.log, hacc, hzero, hpay]

/-- With a configured fee collector and a resolved payer `r` (after the events `pre`),
`AnteHandle` is the deduction from the effective payer. -/
theorem AnteHandle_resolved {σ : Type} (codec : Codec) (dfd : DeductFeeDecorator σ)
    (ctx : Context) (tx : Tx) (sim : Bool) (next : AnteHandler σ) (w : World σ) (feeTx : FeeTx)
    (c : AccAddress) (r : Option AccAddress) (pre : List Event)
    (hfee : asFeeTx tx = some feeTx)
    (hcfg : dfd.ak.GetModuleAddress FeeCollectorName = some c)
    (hres : ∀ w0 : World σ, delegatedFeePayer codec tx w0
        = (Except.ok r, ⟨w0.store, w0.trace ++ pre⟩)) :
    DeductFeeDecorator.AnteHandle codec dfd ctx tx sim next w
      = dfd.deductFrom feeTx (r.getD feeTx.feePayer) ctx tx sim next
          ⟨w.store, w.trace ++ (Event.getModuleAddress FeeCollectorName :: pre)⟩ := by
  cases r with
  | none => simp [DeductFeeDecorator.AnteHandle, hfee, hcfg, hres, World.log]
  | some a => simp [DeductFeeDecorator.AnteHandle, hfee, hcfg, hres, World.log]

/-- Without a configured fee collector `AnteHandle` panics right after asking for it. -/
theorem AnteHandle_unconfigured {σ : Type} (codec : Codec) (dfd : DeductFeeDecorator σ)
    (ctx : Context) (tx : Tx) (sim : Bool) (w : World σ) (feeTx : FeeTx)
    (hfee : asFeeTx tx = some feeTx)
    (hcfg : dfd.ak.GetModuleAddress FeeCollectorName = none) :
    Stops (DeductFeeDecorator.AnteHandle codec dfd) ctx tx sim w
      [Event.getModuleAddress FeeCollectorName] w.store
      (Result.panicked "fee_collector module account has not been set") := by
  intro next
  simp [DeductFeeDecorator.AnteHandle, hfee, hcfg, World.log]

/-- Once the payer is resolved, a forwarding deduction is a forwarding `AnteHandle`. -/
theorem AnteHandle_forwards {σ : Type} (codec : Codec) (dfd : DeductFeeDecorator σ)
    (ctx : Context) (tx : Tx) (sim : Bool) (w : World σ) (feeTx : FeeTx)
    (c : AccAddress) (r : Option AccAddress) (pre own : List Event) (s : σ)
    (hfee : asFeeTx tx = some feeTx)
    (hcfg : dfd.ak.GetModuleAddress FeeCollectorName = some c)
    (hres : ∀ w0 : World σ, delegatedFeePayer codec tx w0
        = (Except.ok r, ⟨w0.store, w0.trace ++ pre⟩))
    (hrun : Forwards (dfd.deductFrom feeTx (r.getD feeTx.feePayer)) ctx tx sim
        ⟨w.store, w.trace ++ (Event.getModuleAddress FeeCollectorName :: pre)⟩ own s) :
    Forwards (DeductFeeDecorator.AnteHandle codec dfd) ctx tx sim w
      (Event.getModuleAddress FeeCollectorName :: pre ++ own) s := by
  intro next
  rw [AnteHandle_resolved codec dfd ctx tx sim next w feeTx c r pre hfee hcfg hres, hrun next]
  simp [List.append_assoc]

/-- Once the payer is resolved, a stopping deduction is a stopping `AnteHandle`. -/
theorem AnteHandle_stops {σ : Type} (codec : Codec) (dfd : DeductFeeDecorator σ)
    (ctx : Context) (tx : Tx) (sim : Bool) (w : World σ) (feeTx : FeeTx)
    (c : AccAddress) (r : Option AccAddress) (pre own : List Event) (s : σ) (res : Result)
    (hfee : asFeeTx tx = some feeTx)
    (hcfg : dfd.ak.GetModuleAddress FeeCollectorName = some c)
    (hres : ∀ w0 : World σ, delegatedFeePayer codec tx w0
        = (Except.ok r, ⟨w0.store, w0.trace ++ pre⟩))
    (hrun : Stops (dfd.deductFrom feeTx (r.getD feeTx.feePayer)) ctx tx sim
        ⟨w.store, w.trace ++ (Event.getModuleAddress FeeCollectorName :: pre)⟩ own s res) :
    Stops (DeductFeeDecorator.AnteHandle codec dfd) ctx tx sim w
      (Event.getModuleAddress FeeCollectorName :: pre ++ own) s res := by
  intro next
  rw [AnteHandle_resolved codec dfd ctx tx sim next w feeTx c r pre hfee hcfg hres, hrun next]
  simp [List.append_assoc]

/-- What `AnteHandle` issues once payer resolution yields `r` after the events `pre`, none of
which is an account lookup or a transfer: only the effective payer is looked up, and only the
account stored under the effective payer is asked to pay, for the declared fee. -/
theorem AnteHandle_payer_only {σ : Type} (codec : Codec) (dfd : DeductFeeDecorator σ)
    (ctx : Context) (tx : Tx) (sim : Bool) (w : World σ) (feeTx : FeeTx)
    (r : Option AccAddress) (pre : List Event)
    (hfee : asFeeTx tx = some feeTx)
    (hres : ∀ w0 : World σ, delegatedFeePayer codec tx w0
        = (Except.ok r, ⟨w0.store, w0.trace ++ pre⟩))
    (hpre : ∀ e ∈ pre, (∃ opt, e = Event.unpackAny opt) ∨ ∃ str, e = Event.accAddressFromBech32 str) :
    ∃ (own : List Event) (s : σ),
      Issues (DeductFeeDecorator.AnteHandle codec dfd) ctx tx sim w own s
      ∧ (∀ a, Event.getAccount a ∈ own → a = r.getD feeTx.feePayer)
      ∧ (∀ acc fees, Event.deductFees acc fees ∈ own →
          dfd.ak.GetAccount ctx w.store (r.getD feeTx.feePayer) = some acc ∧ fees = feeTx.fee)
      ∧ (∀ c, dfd.ak.GetModuleAddress FeeCollectorName = some c →
          Event.getAccount (r.getD feeTx.feePayer) ∈ own)
      ∧ (∀ c acc, dfd.ak.GetModuleAddress FeeCollectorName = some c →
          dfd.ak.GetAccount ctx w.store (r.getD feeTx.feePayer) = some acc →
          feeTx.fee.IsZero = false → Event.deductFees acc feeTx.fee ∈ own) := by
  have hpreA : ∀ a, Event.getAccount a ∉ pre := by
    intro a ha
    rcases hpre _ ha with ⟨o, ho⟩ | ⟨t, ht⟩ <;> cases ‹_ = _›
  have hpreD : ∀ acc fees, Event.deductFees acc fees ∉ pre := by
    intro acc fees ha
    rcases hpre _ ha with ⟨o, ho⟩ | ⟨t, ht⟩ <;> cases ‹_ = _›
  cases hcfg : dfd.ak.GetModuleAddress FeeCollectorName with
  | none =>
    refine ⟨[Event.getModuleAddress FeeCollectorName], w.store,
      Or.inr ⟨_, AnteHandle_unconfigured codec dfd ctx tx sim w feeTx hfee hcfg⟩, ?_, ?_, ?_, ?_⟩
    · intro a ha; simp at ha
    · intro acc fees ha; simp at ha
    · intro c hc; cases hc
    · intro c acc hc; cases hc
  | some c =>
    cases hacc : dfd.ak.GetAccount ctx w.store (r.getD feeTx.feePayer) with
    | none =>
      refine ⟨_, _, Or.inr ⟨_, AnteHandle_stops codec dfd ctx tx sim w feeTx c r pre _ _ _
        hfee hcfg hres (deductFrom_noAccount dfd feeTx _ ctx tx sim _ hacc)⟩, ?_, ?_, ?_, ?_⟩
      · intro a ha
        simp at ha
        rcases ha with ha | ha
        · exact absurd ha (hpreA a)
        · exact ha
      · intro acc fees ha
        simp at ha
        exact absurd ha (hpreD acc fees)
      · intro _ _; simp
      · intro _ acc _ h; cases h
    | some acc =>
      cases hzero : feeTx.fee.IsZero with
      | true =>
        refine ⟨_, _, Or.inl (AnteHandle_forwards codec dfd ctx tx sim w feeTx c r pre _ _
          hfee hcfg hres (deductFrom_zeroFee dfd feeTx _ ctx tx sim _ acc hacc hzero)),
          ?_, ?_, ?_, ?_⟩
        · intro a ha
          simp at ha
          rcases ha with ha | ha
          · exact absurd ha (hpreA a)
          · exact ha
        · intro acc1 fees ha
          simp at ha
          exact absurd ha (hpreD acc1 fees)
        · intro _ _; simp
        · intro _ _ _ _ h; cases h
      | false =>
        cases hpay : dfd.bankKeeper.DeductFees ctx w.store acc feeTx.fee with
        | mk oerr s1 =>
          have hshape : ∀ own : List Event,
              own = Event.getModuleAddress FeeCollectorName :: pre
                ++ [Event.getAccount (r.getD feeTx.feePayer), Event.deductFees acc feeTx.fee] →
              (∀ a, Event.getAccount a ∈ own → a = r.getD feeTx.feePayer)
              ∧ (∀ acc1 fees, Event.deductFees acc1 fees ∈ own →
                  some acc = some acc1 ∧ fees = feeTx.fee)
              ∧ (∀ c1 : AccAddress, some c = some c1 →
                  Event.getAccount (r.getD feeTx.feePayer) ∈ own)
              ∧ (∀ (c1 : AccAddress) (acc1 : Account), some c = some c1 → some acc = some acc1 →
                  false = false → Event.deductFees acc1 feeTx.fee ∈ own) := by
            intro own hown
            subst hown
            refine ⟨?_, ?_, ?_, ?_⟩
            · intro a ha
              simp at ha
              rcases ha with ha | ha
              · exact absurd ha (hpreA a)
              · exact ha
            · intro acc1 fees ha
              simp at ha
              rcases ha with ha | ⟨h1, h2⟩
              · exact absurd ha (hpreD acc1 fees)
              · exact ⟨by rw [h1], h2⟩
            · intro _ _; simp
            · intro _ acc1 _ h _
              cases h
              simp
          cases oerr with
          | none =>
            exact ⟨_, s1, Or.inl (AnteHandle_forwards codec dfd ctx tx sim w feeTx c r pre _ _
              hfee hcfg hres (deductFrom_paid dfd feeTx _ ctx tx sim _ acc s1 hacc hzero hpay)),
              hshape _ rfl⟩
          | some err =>
            exact ⟨_, s1, Or.inr ⟨_, AnteHandle_stops codec dfd ctx tx sim w feeTx c r pre _ _ _
              hfee hcfg hres
              (deductFrom_failed dfd feeTx _ ctx tx sim _ acc err s1 hacc hzero hpay)⟩,
              hshape _ rfl⟩

/-- Two behaviours that agree on every decorator of a chain give the same mapped chain. -/
theorem map_congr_of_not_mem {σ : Type} (chain : List Decorator)
    (impl impl2 : Decorator → AnteDecorator σ)
    (hsame : ∀ d, d ≠ Decorator.NewDeductFeeDecorator → impl d = impl2 d)
    (hnot : Decorator.NewDeductFeeDecorator ∉ chain) :
    chain.map impl = chain.map impl2 := by
  apply List.map_congr_left
  intro d hd
  apply hsame
  intro h
  exact hnot (h ▸ hd)

/-- Counterexample to C6 as stated: an instrumented run of the handler on the web3-tagged
transaction, and one on the transaction without extension options, never executes the
decorator of `fee.go`; the fee step that runs (once) is the decorator built by the SDK
constructor `authante.NewDeductFeeDecorator`. -/
theorem C6_fee_go_decorator_not_in_chains :
    (stepsRun (NewAnteHandler tracing exampleCtx (some web3Tx) false emptyWorld).2).count
        Decorator.NewDeductFeeDecorator = 0
      ∧ (stepsRun (NewAnteHandler tracing exampleCtx (some plainTx) false emptyWorld).2).count
        Decorator.NewDeductFeeDecorator = 0
      ∧ (stepsRun (NewAnteHandler tracing exampleCtx (some web3Tx) false emptyWorld).2).count
        Decorator.authante_NewDeductFeeDecorator = 1
      ∧ (stepsRun (NewAnteHandler tracing exampleCtx (some plainTx) false emptyWorld).2).count
        Decorator.authante_NewDeductFeeDecorator = 1 := by
  decide

/-- C6 (amended). The Standard chain and the Delegated-Signature chain each contain, exactly
once, a fee-deduction decorator, namely the one built by the SDK constructor
`authante.NewDeductFeeDecorator`, and the EVM chain does not contain it; the delegation-aware
`DeductFeeDecorator` of `fee.go` occurs in none of the three chains, so the handler returned by
`NewAnteHandler` is the same whatever that decorator does. -/
theorem C6_chains_use_sdk_fee_decorator {σ : Type} (impl impl2 : Decorator → AnteDecorator σ)
    (hsame : ∀ d, d ≠ Decorator.NewDeductFeeDecorator → impl d = impl2 d) :
    sdkTxChain.count Decorator.authante_NewDeductFeeDecorator = 1
      ∧ web3TxChain.count Decorator.authante_NewDeductFeeDecorator = 1
      ∧ ethereumTxChain.count Decorator.authante_NewDeductFeeDecorator = 0
      ∧ Decorator.NewDeductFeeDecorator ∉ sdkTxChain
      ∧ Decorator.NewDeductFeeDecorator ∉ web3TxChain
      ∧ Decorator.NewDeductFeeDecorator ∉ ethereumTxChain
      ∧ NewAnteHandler impl = NewAnteHandler impl2 := by
  have h1 : Decorator.NewDeductFeeDecorator ∉ sdkTxChain := by decide
  have h2 : Decorator.NewDeductFeeDecorator ∉ web3TxChain := by decide
  have h3 : Decorator.NewDeductFeeDecorator ∉ ethereumTxChain := by decide
  refine ⟨by decide, by decide, by decide, h1, h2, h3, ?_⟩
  funext ctx tx sim w
  simp only [NewAnteHandler, anteHandlerBody, handleSdkTx,
    map_congr_of_not_mem sdkTxChain impl impl2 hsame h1,
    map_congr_of_not_mem web3TxChain impl impl2 hsame h2,
    map_congr_of_not_mem ethereumTxChain impl impl2 hsame h3]

/-- Witness of the amended C6: replacing the behaviour of the decorator of `fee.go` (here by the
real one over the concrete ledger) does not change the handler. -/
theorem C6_chains_use_sdk_fee_decorator_witness :
    (∀ d, d ≠ Decorator.NewDeductFeeDecorator →
        (tracing : Decorator → AnteDecorator Ledger) d
          = withDeductFee tracing
              (DeductFeeDecorator.AnteHandle exampleCodec ledgerDeductFee) d)
      ∧ (sdkTxChain.count Decorator.authante_NewDeductFeeDecorator = 1
        ∧ web3TxChain.count Decorator.authante_NewDeductFeeDecorator = 1
        ∧ ethereumTxChain.count Decorator.authante_NewDeductFeeDecorator = 0
        ∧ Decorator.NewDeductFeeDecorator ∉ sdkTxChain
        ∧ Decorator.NewDeductFeeDecorator ∉ web3TxChain
        ∧ Decorator.NewDeductFeeDecorator ∉ ethereumTxChain
        ∧ NewAnteHandler (tracing : Decorator → AnteDecorator Ledger)
            = NewAnteHandler (withDeductFee tracing
                (DeductFeeDecorator.AnteHandle exampleCodec ledgerDeductFee))) :=
  ⟨fun d hd => by simp [withDeductFee, hd],
    C6_chains_use_sdk_fee_decorator tracing
      (withDeductFee tracing (DeductFeeDecorator.AnteHandle exampleCodec ledgerDeductFee))
      (fun d hd => by simp [withDeductFee, hd])⟩

/-- C7. For a fee-bearing transaction whose first extension option unpacks to an
`ExtensionOptionsWeb3Tx` with a non-empty payer string that parses to the address `P`: whatever
the signers, every account lookup `AnteHandle` issues is for `P`, every transfer it issues has
as source the account stored under `P` (whose address is `P` in a store keyed by address) and is
for the declared fee; when `P` differs from the first signer, the first signer is not looked up;
and, the fee collector being configured, `P` is looked up, and is asked to pay when its account
exists and the fee is not zero. -/
theorem C7_delegated_payer_only {σ : Type} (codec : Codec) (dfd : DeductFeeDecorator σ)
    (ctx : Context) (td : TxData) (sim : Bool) (w : World σ) (feeTx : FeeTx)
    (opt0 : Any) (rest : List Any) (payer : String) (P : AccAddress)
    (hfee : td.feeTx = some feeTx)
    (hopts : td.extensionOptions = some (opt0 :: rest))
    (hunpack : codec.UnpackAny opt0 = some (ExtensionOptionsWeb3TxI.web3Tx payer))
    (hlen : 0 < payer.length) (hparse : codec.AccAddressFromBech32 payer = some P) :
    ∃ (own : List Event) (s : σ),
      Issues (DeductFeeDecorator.AnteHandle codec dfd) ctx (some td) sim w own s
      ∧ (∀ a, Event.getAccount a ∈ own → a = P)
      ∧ (∀ acc fees, Event.deductFees acc fees ∈ own →
          dfd.ak.GetAccount ctx w.store P = some acc ∧ fees = feeTx.fee)
      ∧ ((∀ a acc, dfd.ak.GetAccount ctx w.store a = some acc → acc.address = a) →
          ∀ acc fees, Event.deductFees acc fees ∈ own → acc.address = P)
      ∧ (P ≠ feeTx.feePayer → Event.getAccount feeTx.feePayer ∉ own)
      ∧ (∀ c, dfd.ak.GetModuleAddress FeeCollectorName = some c → Event.getAccount P ∈ own)
      ∧ (∀ c acc, dfd.ak.GetModuleAddress FeeCollectorName = some c →
          dfd.ak.GetAccount ctx w.store P = some acc → feeTx.fee.IsZero = false →
          Event.deductFees acc feeTx.fee ∈ own) := by
  obtain ⟨own, s, hrun, hlook, hpay, hdoes, hdebit⟩ :=
    AnteHandle_payer_only codec dfd ctx (some td) sim w feeTx (some P)
      [Event.unpackAny opt0, Event.accAddressFromBech32 payer] hfee
      (fun w0 => delegatedFeePayer_delegated codec td w0 opt0 rest payer P hopts hunpack hlen
        hparse)
      (by
        intro e he
        simp at he
        rcases he with he | he
        · exact Or.inl ⟨_, he⟩
        · exact Or.inr ⟨_, he⟩)
  refine ⟨own, s, hrun, hlook, hpay, ?_, ?_, hdoes, hdebit⟩
  · intro hkeyed acc fees hmem
    exact hkeyed P acc (hpay acc fees hmem).1
  · intro hne hmem
    exact hne (hlook _ hmem).symm

/-- Witness of C7 on the concrete ledger: signer A (`[10]`), delegated payer B (`[20]`). -/
theorem C7_delegated_payer_only_witness :
    web3Tx.feeTx = some ⟨[⟨"aphoton", 10⟩], [10]⟩
      ∧ web3Tx.extensionOptions
          = some ((⟨"/ethermint.types.v1.ExtensionOptionsWeb3Tx", [11]⟩ : Any) :: [])
      ∧ exampleCodec.UnpackAny ⟨"/ethermint.types.v1.ExtensionOptionsWeb3Tx", [11]⟩
          = some (ExtensionOptionsWeb3TxI.web3Tx "payerB")
      ∧ 0 < "payerB".length
      ∧ exampleCodec.AccAddressFromBech32 "payerB" = some [20]
      ∧ ∃ (own : List Event) (s : Ledger),
          Issues (DeductFeeDecorator.AnteHandle exampleCodec ledgerDeductFee) exampleCtx
            (some web3Tx) false ledgerWorld own s
          ∧ (∀ a, Event.getAccount a ∈ own → a = [20])
          ∧ (∀ acc fees, Event.deductFees acc fees ∈ own →
              ledgerDeductFee.ak.GetAccount exampleCtx ledgerWorld.store [20] = some acc
                ∧ fees = [⟨"aphoton", 10⟩])
          ∧ ((∀ a acc, ledgerDeductFee.ak.GetAccount exampleCtx ledgerWorld.store a = some acc →
                acc.address = a) →
              ∀ acc fees, Event.deductFees acc fees ∈ own → acc.address = [20])
          ∧ (([20] : AccAddress) ≠ [10] → Event.getAccount [10] ∉ own)
          ∧ (∀ c, ledgerDeductFee.ak.GetModuleAddress FeeCollectorName = some c →
              Event.getAccount [20] ∈ own)
          ∧ (∀ c acc, ledgerDeductFee.ak.GetModuleAddress FeeCollectorName = some c →
              ledgerDeductFee.ak.GetAccount exampleCtx ledgerWorld.store [20] = some acc →
              Coins.IsZero [⟨"aphoton", 10⟩] = false →
              Event.deductFees acc [⟨"aphoton", 10⟩] ∈ own) :=
  ⟨rfl, rfl, by decide, by decide, by decide,
    C7_delegated_payer_only exampleCodec ledgerDeductFee exampleCtx web3Tx false ledgerWorld
      ⟨[⟨"aphoton", 10⟩], [10]⟩ ⟨"/ethermint.types.v1.ExtensionOptionsWeb3Tx", [11]⟩ [] "payerB"
      [20] rfl rfl (by decide) (by decide) (by decide)⟩

/-- The delegated-fee scenario on the concrete ledger (A 100, B 50, collector 30, fee 10, payer
B named by the extension): the step forwards, A keeps 100, B is left with 40 and the collector
holds 40; B was looked up, A was not. -/
theorem delegated_fee_scenario :
    (DeductFeeDecorator.AnteHandle exampleCodec ledgerDeductFee exampleCtx (some web3Tx) false
        doneHandler ledgerWorld).1 = Result.ret exampleCtx none
      ∧ (DeductFeeDecorator.AnteHandle exampleCodec ledgerDeductFee exampleCtx (some web3Tx) false
          doneHandler ledgerWorld).2.store.balance [10] "aphoton" = 100
      ∧ (DeductFeeDecorator.AnteHandle exampleCodec ledgerDeductFee exampleCtx (some web3Tx) false
          doneHandler ledgerWorld).2.store.balance [20] "aphoton" = 40
      ∧ (DeductFeeDecorator.AnteHandle exampleCodec ledgerDeductFee exampleCtx (some web3Tx) false
          doneHandler ledgerWorld).2.store.balance collectorAddr "aphoton" = 40
      ∧ (DeductFeeDecorator.AnteHandle exampleCodec ledgerDeductFee exampleCtx (some web3Tx) false
          doneHandler ledgerWorld).2.trace
        = [ Event.getModuleAddress "fee_collector",
            Event.unpackAny ⟨"/ethermint.types.v1.ExtensionOptionsWeb3Tx", [11]⟩,
            Event.accAddressFromBech32 "payerB",
            Event.getAccount [20],
            Event.deductFees ⟨[20], 0⟩ [⟨"aphoton", 10⟩] ] := by
  decide

/-- C8. For a fee-bearing transaction that carries no fee delegation (no extension option at
all, or a first option without a payer string), the effective payer is the transaction's default
payer `FeePayer()`: every account lookup `AnteHandle` issues is for that address, every transfer
it issues has as source the account stored under it (whose address it is in a store keyed by
address) and is for the declared fee, never any other account; and, the fee collector being
configured, the default payer is looked up, and is asked to pay when its account exists and the
fee is not zero. -/
theorem C8_default_payer_only {σ : Type} (codec : Codec) (dfd : DeductFeeDecorator σ)
    (ctx : Context) (td : TxData) (sim : Bool) (w : World σ) (feeTx : FeeTx)
    (hfee : td.feeTx = some feeTx) (hno : NoDelegation codec td) :
    ∃ (own : List Event) (s : σ),
      Issues (DeductFeeDecorator.AnteHandle codec dfd) ctx (some td) sim w own s
      ∧ (∀ a, Event.getAccount a ∈ own → a = feeTx.feePayer)
      ∧ (∀ acc fees, Event.deductFees acc fees ∈ own →
          dfd.ak.GetAccount ctx w.store feeTx.feePayer = some acc ∧ fees = feeTx.fee)
      ∧ ((∀ a acc, dfd.ak.GetAccount ctx w.store a = some acc → acc.address = a) →
          ∀ acc fees, Event.deductFees acc fees ∈ own → acc.address = feeTx.feePayer)
      ∧ (∀ c, dfd.ak.GetModuleAddress FeeCollectorName = some c →
          Event.getAccount feeTx.feePayer ∈ own)
      ∧ (∀ c acc, dfd.ak.GetModuleAddress FeeCollectorName = some c →
          dfd.ak.GetAccount ctx w.store feeTx.feePayer = some acc → feeTx.fee.IsZero = false →
          Event.deductFees acc feeTx.fee ∈ own) := by
  obtain ⟨pre, hpre, hres⟩ := delegatedFeePayer_none (σ := σ) codec td hno
  obtain ⟨own, s, hrun, hlook, hpay, hdoes, hdebit⟩ :=
    AnteHandle_payer_only codec dfd ctx (some td) sim w feeTx none pre hfee hres
      (fun e he => Or.inl (hpre e he))
  refine ⟨own, s, hrun, hlook, hpay, ?_, hdoes, hdebit⟩
  intro hkeyed acc fees hmem
  exact hkeyed _ acc (hpay acc fees hmem).1

/-- Witness of C8 on the concrete ledger: the transaction with an empty extension list, first
signer A (`[10]`). -/
theorem C8_default_payer_only_witness :
    plainTx.feeTx = some ⟨[⟨"aphoton", 10⟩], [10]⟩
      ∧ NoDelegation exampleCodec plainTx
      ∧ ∃ (own : List Event) (s : Ledger),
          Issues (DeductFeeDecorator.AnteHandle exampleCodec ledgerDeductFee) exampleCtx
            (some plainTx) false ledgerWorld own s
          ∧ (∀ a, Event.getAccount a ∈ own → a = [10])
          ∧ (∀ acc fees, Event.deductFees acc fees ∈ own →
              ledgerDeductFee.ak.GetAccount exampleCtx ledgerWorld.store [10] = some acc
                ∧ fees = [⟨"aphoton", 10⟩])
          ∧ ((∀ a acc, ledgerDeductFee.ak.GetAccount exampleCtx ledgerWorld.store a = some acc →
                acc.address = a) →
              ∀ acc fees, Event.deductFees acc fees ∈ own → acc.address = [10])
          ∧ (∀ c, ledgerDeductFee.ak.GetModuleAddress FeeCollectorName = some c →
              Event.getAccount [10] ∈ own)
          ∧ (∀ c acc, ledgerDeductFee.ak.GetModuleAddress FeeCollectorName = some c →
              ledgerDeductFee.ak.GetAccount exampleCtx ledgerWorld.store [10] = some acc →
              Coins.IsZero [⟨"aphoton", 10⟩] = false →
              Event.deductFees acc [⟨"aphoton", 10⟩] ∈ own) :=
  ⟨rfl, Or.inl rfl,
    C8_default_payer_only exampleCodec ledgerDeductFee exampleCtx plainTx false ledgerWorld
      ⟨[⟨"aphoton", 10⟩], [10]⟩ rfl (Or.inl rfl)⟩

/-- C9. For a fee-bearing transaction whose first extension option unpacks to an
`ExtensionOptionsWeb3Tx` with a non-empty payer string that does not parse as an address, on a
node whose fee collector is configured: whatever `next` is, `AnteHandle` returns
`ErrInvalidAddress` (carrying the payer string) with the input context, the store is as it was
received, and all the step did was to ask for the fee-collector address, unpack the first option
and try to parse the payer: no account lookup, no transfer, no call of `next`. -/
theorem C9_invalid_payer_address {σ : Type} (codec : Codec) (dfd : DeductFeeDecorator σ)
    (ctx : Context) (td : TxData) (sim : Bool) (w : World σ) (feeTx : FeeTx)
    (opt0 : Any) (rest : List Any) (payer : String) (c : AccAddress)
    (hfee : td.feeTx = some feeTx)
    (hcfg : dfd.ak.GetModuleAddress FeeCollectorName = some c)
    (hopts : td.extensionOptions = some (opt0 :: rest))
    (hunpack : codec.UnpackAny opt0 = some (ExtensionOptionsWeb3TxI.web3Tx payer))
    (hlen : 0 < payer.length) (hparse : codec.AccAddressFromBech32 payer = none) :
    ∀ next : AnteHandler σ,
      DeductFeeDecorator.AnteHandle codec dfd ctx (some td) sim next w
        = (Result.ret ctx (some (SdkError.ErrInvalidAddress payer)),
            ⟨w.store, w.trace ++
              [ Event.getModuleAddress FeeCollectorName,
                Event.unpackAny opt0,
                Event.accAddressFromBech32 payer ]⟩) := by
  intro next
  have hfee2 : asFeeTx (some td) = some feeTx := hfee
  simp [DeductFeeDecorator.AnteHandle, hfee2, hcfg,
    delegatedFeePayer_invalid codec td _ opt0 rest payer hopts hunpack hlen hparse, World.log]

/-- Witness of C9 on the concrete ledger: the payer string `"garbage"` does not parse; the
balances of A, B and the collector are untouched. -/
theorem C9_invalid_payer_address_witness :
    badPayerTx.feeTx = some ⟨[⟨"aphoton", 10⟩], [10]⟩
      ∧ ledgerDeductFee.ak.GetModuleAddress FeeCollectorName = some collectorAddr
      ∧ badPayerTx.extensionOptions
          = some ((⟨"/ethermint.types.v1.ExtensionOptionsWeb3Tx", [12]⟩ : Any) :: [])
      ∧ exampleCodec.UnpackAny ⟨"/ethermint.types.v1.ExtensionOptionsWeb3Tx", [12]⟩
          = some (ExtensionOptionsWeb3TxI.web3Tx "garbage")
      ∧ 0 < "garbage".length
      ∧ exampleCodec.AccAddressFromBech32 "garbage" = none
      ∧ ∀ next : AnteHandler Ledger,
          DeductFeeDecorator.AnteHandle exampleCodec ledgerDeductFee exampleCtx (some badPayerTx)
              false next ledgerWorld
            = (Result.ret exampleCtx (some (SdkError.ErrInvalidAddress "garbage")),
                ⟨ledgerWorld.store, ledgerWorld.trace ++
                  [ Event.getModuleAddress FeeCollectorName,
                    Event.unpackAny ⟨"/ethermint.types.v1.ExtensionOptionsWeb3Tx", [12]⟩,
                    Event.accAddressFromBech32 "garbage" ]⟩) :=
  ⟨rfl, by decide, rfl, by decide, by decide, by decide,
    C9_invalid_payer_address exampleCodec ledgerDeductFee exampleCtx badPayerTx false ledgerWorld
      ⟨[⟨"aphoton", 10⟩], [10]⟩ ⟨"/ethermint.types.v1.ExtensionOptionsWeb3Tx", [12]⟩ [] "garbage"
      collectorAddr rfl (by decide) rfl (by decide) (by decide) (by decide)⟩

/-- A decorator run cannot both stop and forward. -/
theorem forwards_stops_absurd {σ : Type} (d : AnteDecorator σ) (ctx : Context) (tx : Tx)
    (sim : Bool) (w : World σ) (own own1 : List Event) (s s1 : σ) (r : Result)
    (hfwd : Forwards d ctx tx sim w own s) (hstop : Stops d ctx tx sim w own1 s1 r) : False := by
  have h1 := hfwd (fun _ _ _ w0 => (Result.panicked "a", w0))
  have h2 := hfwd (fun c _ _ w0 => (Result.ret c none, w0))
  rw [hstop] at h1 h2
  have h3 : r = Result.panicked "a" := congrArg Prod.fst h1
  have h4 : r = Result.ret ctx none := congrArg Prod.fst h2
  rw [h3] at h4
  cases h4

/-- A forwarding run determines the events it issued and the store it left. -/
theorem forwards_unique {σ : Type} (d : AnteDecorator σ) (ctx : Context) (tx : Tx)
    (sim : Bool) (w : World σ) (own own1 : List Event) (s s1 : σ)
    (h : Forwards d ctx tx sim w own s) (h1 : Forwards d ctx tx sim w own1 s1) :
    own = own1 ∧ s = s1 := by
  have e := h (fun c _ _ w0 => (Result.ret c none, w0))
  rw [h1] at e
  have e2 : (⟨s1, w.trace ++ own1⟩ : World σ) = ⟨s, w.trace ++ own⟩ := congrArg Prod.snd e
  injection e2 with hs ht
  exact ⟨(List.append_cancel_left ht).symm, hs.symm⟩

/-- Payer resolution never touches the store, and appends to the trace a list of events that
depends on the transaction only: unpacking and parsing, no lookup, no transfer. -/
theorem delegatedFeePayer_shape {σ : Type} (codec : Codec) (tx : Tx) :
    ∃ (res : Except SdkError (Option AccAddress)) (pre : List Event),
      (∀ e ∈ pre, (∃ opt, e = Event.unpackAny opt) ∨ ∃ str, e = Event.accAddressFromBech32 str)
      ∧ ∀ w0 : World σ, delegatedFeePayer codec tx w0 = (res, ⟨w0.store, w0.trace ++ pre⟩) := by
  cases hopts : getExtensionOptions tx with
  | none => exact ⟨Except.ok none, [], by simp, fun w0 => by simp [delegatedFeePayer, hopts]⟩
  | some opts =>
    cases opts with
    | nil => exact ⟨Except.ok none, [], by simp, fun w0 => by simp [delegatedFeePayer, hopts]⟩
    | cons opt0 rest =>
      cases hun : codec.UnpackAny opt0 with
      | none =>
        exact ⟨Except.error (SdkError.ErrUnpackAny "failed to proto-unpack ExtensionOptionsWeb3Tx"),
          [Event.unpackAny opt0], by simp,
          fun w0 => by simp [delegatedFeePayer, hopts, hun, World.log]⟩
      | some v =>
        cases v with
        | notWeb3Tx =>
          exact ⟨Except.ok none, [Event.unpackAny opt0], by simp,
            fun w0 => by simp [delegatedFeePayer, hopts, hun, World.log]⟩
        | web3Tx payer =>
          by_cases hlen : payer.length > 0
          · cases hparse : codec.AccAddressFromBech32 payer with
            | none =>
              exact ⟨Except.error (SdkError.ErrInvalidAddress payer),
                [Event.unpackAny opt0, Event.accAddressFromBech32 payer], by simp,
                fun w0 => by simp [delegatedFeePayer, hopts, hun, hlen, hparse, World.log]⟩
            | some addr =>
              exact ⟨Except.ok (some addr),
                [Event.unpackAny opt0, Event.accAddressFromBech32 payer], by simp,
                fun w0 => by simp [delegatedFeePayer, hopts, hun, hlen, hparse, World.log]⟩
          · exact ⟨Except.ok none, [Event.unpackAny opt0], by simp,
              fun w0 => by simp [delegatedFeePayer, hopts, hun, hlen, World.log]⟩

/-- A transaction that is not fee-bearing: `AnteHandle` stops at once. -/
theorem AnteHandle_notFeeTx {σ : Type} (codec : Codec) (dfd : DeductFeeDecorator σ)
    (ctx : Context) (tx : Tx) (sim : Bool) (w : World σ) (hfee : asFeeTx tx = none) :
    Stops (DeductFeeDecorator.AnteHandle codec dfd) ctx tx sim w [] w.store
      (Result.ret ctx (some (SdkError.ErrTxDecode "Tx must be a FeeTx"))) := by
  intro next
  simp [DeductFeeDecorator.AnteHandle, hfee]

/-- Payer resolution fails: `AnteHandle` stops with the error of the resolution. -/
theorem AnteHandle_resolution_error {σ : Type} (codec : Codec) (dfd : DeductFeeDecorator σ)
    (ctx : Context) (tx : Tx) (sim : Bool) (w : World σ) (feeTx : FeeTx) (c : AccAddress)
    (err : SdkError) (pre : List Event)
    (hfee : asFeeTx tx = some feeTx)
    (hcfg : dfd.ak.GetModuleAddress FeeCollectorName = some c)
    (hres : ∀ w0 : World σ, delegatedFeePayer codec tx w0
        = (Except.error err, ⟨w0.store, w0.trace ++ pre⟩)) :
    Stops (DeductFeeDecorator.AnteHandle codec dfd) ctx tx sim w
      (Event.getModuleAddress FeeCollectorName :: pre) w.store (Result.ret ctx (some err)) := by
  intro next
  simp [DeductFeeDecorator.AnteHandle, hfee, hcfg, hres, World.log]

/-- Inversion of a forwarding run of `AnteHandle`: the transaction is fee-bearing, the fee
collector is configured, payer resolution succeeded, the effective payer has an account, and
either the fee is zero and nothing was transferred, or the fee is not zero and exactly one
transfer was requested, which succeeded. -/
theorem AnteHandle_forwards_inv {σ : Type} (codec : Codec) (dfd : DeductFeeDecorator σ)
    (ctx : Context) (tx : Tx) (sim : Bool) (w : World σ) (own : List Event) (s : σ)
    (hfwd : Forwards (DeductFeeDecorator.AnteHandle codec dfd) ctx tx sim w own s) :
    ∃ (feeTx : FeeTx) (c : AccAddress) (r : Option AccAddress) (pre : List Event)
      (acc : Account),
      asFeeTx tx = some feeTx
      ∧ dfd.ak.GetModuleAddress FeeCollectorName = some c
      ∧ (∀ w0 : World σ, delegatedFeePayer codec tx w0
          = (Except.ok r, ⟨w0.store, w0.trace ++ pre⟩))
      ∧ (∀ e ∈ pre, (∃ opt, e = Event.unpackAny opt) ∨ ∃ str, e = Event.accAddressFromBech32 str)
      ∧ dfd.ak.GetAccount ctx w.store (r.getD feeTx.feePayer) = some acc
      ∧ ((feeTx.fee.IsZero = true ∧ s = w.store
            ∧ own = Event.getModuleAddress FeeCollectorName :: pre
                ++ [Event.getAccount (r.getD feeTx.feePayer)])
          ∨ (feeTx.fee.IsZero = false
            ∧ dfd.bankKeeper.DeductFees ctx w.store acc feeTx.fee = (none, s)
            ∧ own = Event.getModuleAddress FeeCollectorName :: pre
                ++ [Event.getAccount (r.getD feeTx.feePayer),
                    Event.deductFees acc feeTx.fee])) := by
  cases hfee : asFeeTx tx with
  | none =>
    exact (forwards_stops_absurd _ ctx tx sim w _ _ _ _ _ hfwd
      (AnteHandle_notFeeTx codec dfd ctx tx sim w hfee)).elim
  | some feeTx =>
    cases hcfg : dfd.ak.GetModuleAddress FeeCollectorName with
    | none =>
      exact (forwards_stops_absurd _ ctx tx sim w _ _ _ _ _ hfwd
        (AnteHandle_unconfigured codec dfd ctx tx sim w feeTx hfee hcfg)).elim
    | some c =>
      obtain ⟨res, pre, hpre, hres⟩ := delegatedFeePayer_shape (σ := σ) codec tx
      cases res with
      | error err =>
        exact (forwards_stops_absurd _ ctx tx sim w _ _ _ _ _ hfwd
          (AnteHandle_resolution_error codec dfd ctx tx sim w feeTx c err pre hfee hcfg
            hres)).elim
      | ok r =>
        cases hacc : dfd.ak.GetAccount ctx w.store (r.getD feeTx.feePayer) with
        | none =>
          exact (forwards_stops_absurd _ ctx tx sim w _ _ _ _ _ hfwd
            (AnteHandle_stops codec dfd ctx tx sim w feeTx c r pre _ _ _ hfee hcfg hres
              (deductFrom_noAccount dfd feeTx _ ctx tx sim _ hacc))).elim
        | some acc =>
          cases hzero : feeTx.fee.IsZero with
          | true =>
            obtain ⟨h1, h2⟩ := forwards_unique _ ctx tx sim w _ _ _ _ hfwd
              (AnteHandle_forwards codec dfd ctx tx sim w feeTx c r pre _ _ hfee hcfg hres
                (deductFrom_zeroFee dfd feeTx _ ctx tx sim _ acc hacc hzero))
            exact ⟨feeTx, c, r, pre, acc, rfl, rfl, hres, hpre, hacc, Or.inl ⟨hzero, h2, h1⟩⟩
          | false =>
            cases hpay : dfd.bankKeeper.DeductFees ctx w.store acc feeTx.fee with
            | mk oerr s1 =>
              cases oerr with
              | some err =>
                exact (forwards_stops_absurd _ ctx tx sim w _ _ _ _ _ hfwd
                  (AnteHandle_stops codec dfd ctx tx sim w feeTx c r pre _ _ _ hfee hcfg hres
                    (deductFrom_failed dfd feeTx _ ctx tx sim _ acc err s1 hacc hzero
                      hpay))).elim
              | none =>
                obtain ⟨h1, h2⟩ := forwards_unique _ ctx tx sim w _ _ _ _ hfwd
                  (AnteHandle_forwards codec dfd ctx tx sim w feeTx c r pre _ _ hfee hcfg hres
                    (deductFrom_paid dfd feeTx _ ctx tx sim _ acc s1 hacc hzero hpay))
                subst h2
                exact ⟨feeTx, c, r, pre, acc, rfl, rfl, hres, hpre, hacc,
                  Or.inr ⟨hzero, hpay, h1⟩⟩

/-- A zero fee holds nothing of any denomination. -/
theorem amountOf_of_isZero (coins : Coins) (d : String) (hzero : coins.IsZero = true) :
    coins.amountOf d = 0 := by
  induction coins with
  | nil => rfl
  | cons c cs ih =>
    simp only [Coins.IsZero, List.all_cons, Bool.and_eq_true, beq_iff_eq] at hzero
    have hcs : Coins.amountOf cs d = 0 := ih (by simpa [Coins.IsZero] using hzero.2)
    unfold Coins.amountOf at hcs ⊢
    by_cases hd : (c.denom == d) = true
    · simp [List.filter_cons, hd, hzero.1, hcs]
    · simp [List.filter_cons, hd, hcs]

/-- Unpacking and parsing are not transfers. -/
theorem transfersOf_pre (pre : List Event)
    (hpre : ∀ e ∈ pre, (∃ opt, e = Event.unpackAny opt) ∨ ∃ str, e = Event.accAddressFromBech32 str) :
    transfersOf pre = [] := by
  induction pre with
  | nil => rfl
  | cons e es ih =>
    have hes : transfersOf es = [] := ih (fun x hx => hpre x (List.mem_cons_of_mem _ hx))
    unfold transfersOf at hes ⊢
    rcases hpre e (List.mem_cons_self _ _) with ⟨opt, rfl⟩ | ⟨str, rfl⟩
    · simp [List.filterMap_cons, hes]
    · simp [List.filterMap_cons, hes]

/-- The bank of the concrete ledger moves exactly the requested amount. -/
theorem ledgerBankKeeper_movesExactly :
    MovesExactly ledgerBankKeeper Ledger.balance collectorAddr := by
  intro ctx l acc fees l1 h a d
  unfold ledgerBankKeeper at h
  by_cases hc : l.covers acc.address fees = true
  · simp only [hc, if_true] at h
    have hl : l.send acc.address collectorAddr fees = l1 := congrArg Prod.snd h
    rw [← hl]
    rfl
  · simp only [hc] at h
    have hn := congrArg Prod.fst h
    simp at hn

/-- Counterexample to C10 as stated.  On the concrete ledger, whose bank moves exactly the
requested amount, the transaction that names the fee collector itself as payer runs through to
`next` with exactly one transfer request, from the collector account for the declared fee of
10; the payer's balance is 30 before and 30 after: it did not decrease by the fee, and the
collector's balance did not increase by it. -/
theorem C10_payer_is_collector :
    MovesExactly ledgerBankKeeper Ledger.balance collectorAddr
      ∧ Forwards (DeductFeeDecorator.AnteHandle exampleCodec ledgerDeductFee) exampleCtx
          (some collectorPaysTx) false ledgerWorld
          [ Event.getModuleAddress "fee_collector",
            Event.unpackAny ⟨"/ethermint.types.v1.ExtensionOptionsWeb3Tx", [13]⟩,
            Event.accAddressFromBech32 "collector",
            Event.getAccount collectorAddr,
            Event.deductFees ⟨collectorAddr, 0⟩ [⟨"aphoton", 10⟩] ]
          (exampleLedger.send collectorAddr collectorAddr [⟨"aphoton", 10⟩])
      ∧ Coins.IsZero [⟨"aphoton", 10⟩] = false
      ∧ exampleLedger.balance collectorAddr "aphoton" = 30
      ∧ (exampleLedger.send collectorAddr collectorAddr [⟨"aphoton", 10⟩]).balance
          collectorAddr "aphoton" = 30
      ∧ (exampleLedger.send collectorAddr collectorAddr [⟨"aphoton", 10⟩]).balance
          collectorAddr "aphoton"
        ≠ exampleLedger.balance collectorAddr "aphoton"
            - Coins.amountOf [⟨"aphoton", 10⟩] "aphoton" := by
  refine ⟨ledgerBankKeeper_movesExactly, ?_, by decide, by decide, by decide, by decide⟩
  intro next
  rfl

/-- C10 (amended). For every run of `AnteHandle` that reaches `next`: the transaction is
fee-bearing, the effective payer (the delegated payer if resolution set one, the default payer
otherwise) has an account, and the step has issued exactly one transfer request when the fee is
not zero, from that account for exactly the declared fee, and no transfer request when the fee
is zero; over a transfer service that moves exactly the requested amount, and provided the payer
account is not the fee collector itself, the payer's balance in the store handed to `next` is the
one before less the fee, and the collector's balance is the one before plus the fee. -/
theorem C10_exactly_one_transfer {σ : Type} (codec : Codec) (dfd : DeductFeeDecorator σ)
    (ctx : Context) (tx : Tx) (sim : Bool) (w : World σ) (own : List Event) (s : σ)
    (balance : σ → AccAddress → String → Int) (collector : AccAddress)
    (hfwd : Forwards (DeductFeeDecorator.AnteHandle codec dfd) ctx tx sim w own s)
    (hexact : MovesExactly dfd.bankKeeper balance collector) :
    ∃ (feeTx : FeeTx) (r : Option AccAddress) (acc : Account),
      asFeeTx tx = some feeTx
      ∧ (delegatedFeePayer codec tx (w.log (Event.getModuleAddress FeeCollectorName))).1
          = Except.ok r
      ∧ dfd.ak.GetAccount ctx w.store (r.getD feeTx.feePayer) = some acc
      ∧ (feeTx.fee.IsZero = false → transfersOf own = [(acc, feeTx.fee)])
      ∧ (feeTx.fee.IsZero = true → transfersOf own = [])
      ∧ (acc.address ≠ collector → ∀ d : String,
          balance s acc.address d = balance w.store acc.address d - feeTx.fee.amountOf d
            ∧ balance s collector d = balance w.store collector d + feeTx.fee.amountOf d) := by
  obtain ⟨feeTx, c, r, pre, acc, hfee, _, hres, hpre, hacc, hcase⟩ :=
    AnteHandle_forwards_inv codec dfd ctx tx sim w own s hfwd
  have hnil := transfersOf_pre pre hpre
  unfold transfersOf at hnil
  refine ⟨feeTx, r, acc, hfee, by rw [hres], hacc, ?_, ?_, ?_⟩
  · intro hz
    rcases hcase with ⟨hz1, _, _⟩ | ⟨_, _, hown⟩
    · rw [hz1] at hz; cases hz
    · subst hown
      simp [transfersOf, List.filterMap_append, List.filterMap_cons, hnil]
  · intro hz
    rcases hcase with ⟨_, _, hown⟩ | ⟨hz1, _, _⟩
    · subst hown
      simp [transfersOf, List.filterMap_append, List.filterMap_cons, hnil]
    · rw [hz1] at hz; cases hz
  · intro hne d
    rcases hcase with ⟨hz, hs, _⟩ | ⟨_, hpay, _⟩
    · subst hs
      simp [amountOf_of_isZero feeTx.fee d hz]
    · have h1 := hexact ctx w.store acc feeTx.fee s hpay acc.address d
      have h2 := hexact ctx w.store acc feeTx.fee s hpay collector d
      simp only [if_true, if_neg hne, if_neg (Ne.symm hne)] at h1 h2
      constructor
      · rw [h1]; ring
      · rw [h2]; ring

/-- Witness of the amended C10: the delegated-fee scenario on the concrete ledger. -/
theorem C10_exactly_one_transfer_witness :
    Forwards (DeductFeeDecorator.AnteHandle exampleCodec ledgerDeductFee) exampleCtx
        (some web3Tx) false ledgerWorld
        [ Event.getModuleAddress "fee_collector",
          Event.unpackAny ⟨"/ethermint.types.v1.ExtensionOptionsWeb3Tx", [11]⟩,
          Event.accAddressFromBech32 "payerB",
          Event.getAccount [20],
          Event.deductFees ⟨[20], 0⟩ [⟨"aphoton", 10⟩] ]
        (exampleLedger.send [20] collectorAddr [⟨"aphoton", 10⟩])
      ∧ MovesExactly ledgerDeductFee.bankKeeper Ledger.balance collectorAddr
      ∧ ∃ (feeTx : FeeTx) (r : Option AccAddress) (acc : Account),
          asFeeTx (some web3Tx) = some feeTx
          ∧ (delegatedFeePayer exampleCodec (some web3Tx)
              (ledgerWorld.log (Event.getModuleAddress FeeCollectorName))).1 = Except.ok r
          ∧ ledgerDeductFee.ak.GetAccount exampleCtx ledgerWorld.store (r.getD feeTx.feePayer)
              = some acc
          ∧ (feeTx.fee.IsZero = false →
              transfersOf
                [ Event.getModuleAddress "fee_collector",
                  Event.unpackAny ⟨"/ethermint.types.v1.ExtensionOptionsWeb3Tx", [11]⟩,
                  Event.accAddressFromBech32 "payerB",
                  Event.getAccount [20],
                  Event.deductFees ⟨[20], 0⟩ [⟨"aphoton", 10⟩] ] = [(acc, feeTx.fee)])
          ∧ (feeTx.fee.IsZero = true →
              transfersOf
                [ Event.getModuleAddress "fee_collector",
                  Event.unpackAny ⟨"/ethermint.types.v1.ExtensionOptionsWeb3Tx", [11]⟩,
                  Event.accAddressFromBech32 "payerB",
                  Event.getAccount [20],
                  Event.deductFees ⟨[20], 0⟩ [⟨"aphoton", 10⟩] ] = [])
          ∧ (acc.address ≠ collectorAddr → ∀ d : String,
              (exampleLedger.send [20] collectorAddr [⟨"aphoton", 10⟩]).balance acc.address d
                  = ledgerWorld.store.balance acc.address d - feeTx.fee.amountOf d
                ∧ (exampleLedger.send [20] collectorAddr [⟨"aphoton", 10⟩]).balance
                    collectorAddr d
                  = ledgerWorld.store.balance collectorAddr d + feeTx.fee.amountOf d) :=
  ⟨fun _ => rfl, ledgerBankKeeper_movesExactly,
    C10_exactly_one_transfer exampleCodec ledgerDeductFee exampleCtx (some web3Tx) false
      ledgerWorld _ _ Ledger.balance collectorAddr (fun _ => rfl) ledgerBankKeeper_movesExactly⟩

/-! ## Theorems: the remaining paths of `fee.go` -/

/-- The first component of payer resolution at one world fixes its outcome at every world. -/
theorem delegatedFeePayer_of_fst {σ : Type} (codec : Codec) (tx : Tx) (w : World σ)
    (res : Except SdkError (Option AccAddress))
    (hres : (delegatedFeePayer codec tx w).1 = res) :
    ∃ pre : List Event,
      (∀ e ∈ pre, (∃ opt, e = Event.unpackAny opt) ∨ ∃ str, e = Event.accAddressFromBech32 str)
      ∧ ∀ w0 : World σ, delegatedFeePayer codec tx w0 = (res, ⟨w0.store, w0.trace ++ pre⟩) := by
  obtain ⟨res1, pre, hpre, hall⟩ := delegatedFeePayer_shape (σ := σ) codec tx
  rw [hall w] at hres
  exact ⟨pre, hpre, fun w0 => by rw [hall w0]; exact congrArg (fun x => (x, _)) hres⟩

/-- C11. Once `AnteHandle` has resolved the payer (fee-bearing transaction, configured fee
collector, successful resolution, existing payer account) and collected the fee (a zero fee, or a
transfer that the service reports ok), its result is exactly the result of `next` on the context,
transaction and simulate flag it received, in the world the transfer left: the step issued at
most the one transfer of the fee before, and adds nothing after `next` returns; in particular
when `next` returns an error (or any other outcome) the step returns that outcome and world
verbatim, so it issues no compensating transfer. -/
theorem C11_forwards_to_next_unchanged {σ : Type} (codec : Codec) (dfd : DeductFeeDecorator σ)
    (ctx : Context) (tx : Tx) (sim : Bool) (w : World σ) (feeTx : FeeTx) (c : AccAddress)
    (r : Option AccAddress) (acc : Account) (s : σ)
    (hfee : asFeeTx tx = some feeTx)
    (hcfg : dfd.ak.GetModuleAddress FeeCollectorName = some c)
    (hres : (delegatedFeePayer codec tx (w.log (Event.getModuleAddress FeeCollectorName))).1
        = Except.ok r)
    (hacc : dfd.ak.GetAccount ctx w.store (r.getD feeTx.feePayer) = some acc)
    (hcollected : (feeTx.fee.IsZero = true ∧ s = w.store)
        ∨ (feeTx.fee.IsZero = false
            ∧ dfd.bankKeeper.DeductFees ctx w.store acc feeTx.fee = (none, s))) :
    ∃ own : List Event,
      transfersOf own = (if feeTx.fee.IsZero then [] else [(acc, feeTx.fee)])
      ∧ (∀ next : AnteHandler σ,
          DeductFeeDecorator.AnteHandle codec dfd ctx tx sim next w
            = next ctx tx sim ⟨s, w.trace ++ own⟩)
      ∧ (∀ (next : AnteHandler σ) (c1 : Context) (e : SdkError) (w1 : World σ),
          next ctx tx sim ⟨s, w.trace ++ own⟩ = (Result.ret c1 (some e), w1) →
          DeductFeeDecorator.AnteHandle codec dfd ctx tx sim next w
            = (Result.ret c1 (some e), w1)) := by
  obtain ⟨pre, hpre, hall⟩ := delegatedFeePayer_of_fst codec tx _ _ hres
  have hnil := transfersOf_pre pre hpre
  unfold transfersOf at hnil
  rcases hcollected with ⟨hz, hs⟩ | ⟨hz, hpay⟩
  · subst hs
    have hf := AnteHandle_forwards codec dfd ctx tx sim w feeTx c r pre _ _ hfee hcfg hall
      (deductFrom_zeroFee dfd feeTx _ ctx tx sim _ acc hacc hz)
    refine ⟨_, ?_, hf, fun next c1 e w1 h => by rw [hf next, h]⟩
    simp [transfersOf, List.filterMap_append, List.filterMap_cons, hnil, hz]
  · have hf := AnteHandle_forwards codec dfd ctx tx sim w feeTx c r pre _ _ hfee hcfg hall
      (deductFrom_paid dfd feeTx _ ctx tx sim _ acc s hacc hz hpay)
    refine ⟨_, ?_, hf, fun next c1 e w1 h => by rw [hf next, h]⟩
    simp [transfersOf, List.filterMap_append, List.filterMap_cons, hnil, hz]

/-- Witness of C11 on the concrete ledger: the delegated-fee transaction, payer B. -/
theorem C11_forwards_to_next_unchanged_witness :
    asFeeTx (some web3Tx) = some ⟨[⟨"aphoton", 10⟩], [10]⟩
      ∧ ledgerDeductFee.ak.GetModuleAddress FeeCollectorName = some collectorAddr
      ∧ (delegatedFeePayer exampleCodec (some web3Tx)
          (ledgerWorld.log (Event.getModuleAddress FeeCollectorName))).1 = Except.ok (some [20])
      ∧ ledgerDeductFee.ak.GetAccount exampleCtx ledgerWorld.store [20] = some ⟨[20], 0⟩
      ∧ ledgerDeductFee.bankKeeper.DeductFees exampleCtx ledgerWorld.store ⟨[20], 0⟩
          [⟨"aphoton", 10⟩] = (none, exampleLedger.send [20] collectorAddr [⟨"aphoton", 10⟩])
      ∧ ∃ own : List Event,
          transfersOf own
            = (if Coins.IsZero [⟨"aphoton", 10⟩] then []
                else [((⟨[20], 0⟩ : Account), ([⟨"aphoton", 10⟩] : Coins))])
          ∧ (∀ next : AnteHandler Ledger,
              DeductFeeDecorator.AnteHandle exampleCodec ledgerDeductFee exampleCtx
                  (some web3Tx) false next ledgerWorld
                = next exampleCtx (some web3Tx) false
                    ⟨exampleLedger.send [20] collectorAddr [⟨"aphoton", 10⟩],
                      ledgerWorld.trace ++ own⟩)
          ∧ (∀ (next : AnteHandler Ledger) (c1 : Context) (e : SdkError) (w1 : World Ledger),
              next exampleCtx (some web3Tx) false
                  ⟨exampleLedger.send [20] collectorAddr [⟨"aphoton", 10⟩],
                    ledgerWorld.trace ++ own⟩ = (Result.ret c1 (some e), w1) →
              DeductFeeDecorator.AnteHandle exampleCodec ledgerDeductFee exampleCtx
                  (some web3Tx) false next ledgerWorld = (Result.ret c1 (some e), w1)) :=
  ⟨rfl, by decide, rfl, by decide, rfl,
    C11_forwards_to_next_unchanged exampleCodec ledgerDeductFee exampleCtx (some web3Tx) false
      ledgerWorld ⟨[⟨"aphoton", 10⟩], [10]⟩ collectorAddr (some [20]) ⟨[20], 0⟩
      (exampleLedger.send [20] collectorAddr [⟨"aphoton", 10⟩])
      rfl (by decide) rfl (by decide) (Or.inr ⟨by decide, rfl⟩)⟩

/-- C12. For a fee-bearing transaction, on a node whose fee collector is configured, whose
effective payer (the delegated payer if resolution set one, the default payer otherwise) has no
account in the account store: whatever `next` is and whatever the fee amount (zero included),
`AnteHandle` returns `ErrUnknownAddress` for that payer with the input context; the store is as
it was received, the step issued no transfer, and `next` is not called. -/
theorem C12_unknown_payer_account {σ : Type} (codec : Codec) (dfd : DeductFeeDecorator σ)
    (ctx : Context) (tx : Tx) (sim : Bool) (w : World σ) (feeTx : FeeTx) (c : AccAddress)
    (r : Option AccAddress)
    (hfee : asFeeTx tx = some feeTx)
    (hcfg : dfd.ak.GetModuleAddress FeeCollectorName = some c)
    (hres : (delegatedFeePayer codec tx (w.log (Event.getModuleAddress FeeCollectorName))).1
        = Except.ok r)
    (hacc : dfd.ak.GetAccount ctx w.store (r.getD feeTx.feePayer) = none) :
    ∃ own : List Event,
      transfersOf own = []
      ∧ Event.getAccount (r.getD feeTx.feePayer) ∈ own
      ∧ ∀ next : AnteHandler σ,
          DeductFeeDecorator.AnteHandle codec dfd ctx tx sim next w
            = (Result.ret ctx (some (SdkError.ErrUnknownAddress (r.getD feeTx.feePayer))),
                ⟨w.store, w.trace ++ own⟩) := by
  obtain ⟨pre, hpre, hall⟩ := delegatedFeePayer_of_fst codec tx _ _ hres
  have hnil := transfersOf_pre pre hpre
  unfold transfersOf at hnil
  refine ⟨_, ?_, ?_, AnteHandle_stops codec dfd ctx tx sim w feeTx c r pre _ _ _ hfee hcfg hall
    (deductFrom_noAccount dfd feeTx _ ctx tx sim _ hacc)⟩
  · simp [transfersOf, List.filterMap_append, List.filterMap_cons, hnil]
  · simp

/-- Witness of C12 on the concrete ledger: the signer `[77]` has no account, the fee is zero. -/
theorem C12_unknown_payer_account_witness :
    asFeeTx (some strangerTx) = some ⟨[⟨"aphoton", 0⟩], [77]⟩
      ∧ ledgerDeductFee.ak.GetModuleAddress FeeCollectorName = some collectorAddr
      ∧ (delegatedFeePayer exampleCodec (some strangerTx)
          (ledgerWorld.log (Event.getModuleAddress FeeCollectorName))).1 = Except.ok none
      ∧ ledgerDeductFee.ak.GetAccount exampleCtx ledgerWorld.store [77] = none
      ∧ ∃ own : List Event,
          transfersOf own = []
          ∧ Event.getAccount [77] ∈ own
          ∧ ∀ next : AnteHandler Ledger,
              DeductFeeDecorator.AnteHandle exampleCodec ledgerDeductFee exampleCtx
                  (some strangerTx) true next ledgerWorld
                = (Result.ret exampleCtx (some (SdkError.ErrUnknownAddress [77])),
                    ⟨ledgerWorld.store, ledgerWorld.trace ++ own⟩) :=
  ⟨rfl, by decide, rfl, by decide,
    C12_unknown_payer_account exampleCodec ledgerDeductFee exampleCtx (some strangerTx) true
      ledgerWorld ⟨[⟨"aphoton", 0⟩], [77]⟩ collectorAddr none rfl (by decide) rfl (by decide)⟩

/-- C13. For a fee-bearing transaction with a fee that is not zero, on a node whose fee
collector is configured and whose effective payer has an account, when the transfer service
returns an error: whatever `next` is, `AnteHandle` returns exactly that error, unwrapped, with
the input context; the step issued exactly one transfer request (no retry), the store is the one
the service left, and `next` is not called. -/
theorem C13_transfer_error_propagated {σ : Type} (codec : Codec) (dfd : DeductFeeDecorator σ)
    (ctx : Context) (tx : Tx) (sim : Bool) (w : World σ) (feeTx : FeeTx) (c : AccAddress)
    (r : Option AccAddress) (acc : Account) (err : SdkError) (s : σ)
    (hfee : asFeeTx tx = some feeTx)
    (hcfg : dfd.ak.GetModuleAddress FeeCollectorName = some c)
    (hres : (delegatedFeePayer codec tx (w.log (Event.getModuleAddress FeeCollectorName))).1
        = Except.ok r)
    (hacc : dfd.ak.GetAccount ctx w.store (r.getD feeTx.feePayer) = some acc)
    (hzero : feeTx.fee.IsZero = false)
    (hpay : dfd.bankKeeper.DeductFees ctx w.store acc feeTx.fee = (some err, s)) :
    ∃ own : List Event,
      transfersOf own = [(acc, feeTx.fee)]
      ∧ ∀ next : AnteHandler σ,
          DeductFeeDecorator.AnteHandle codec dfd ctx tx sim next w
            = (Result.ret ctx (some err), ⟨s, w.trace ++ own⟩) := by
  obtain ⟨pre, hpre, hall⟩ := delegatedFeePayer_of_fst codec tx _ _ hres
  have hnil := transfersOf_pre pre hpre
  unfold transfersOf at hnil
  refine ⟨_, ?_, AnteHandle_stops codec dfd ctx tx sim w feeTx c r pre _ _ _ hfee hcfg hall
    (deductFrom_failed dfd feeTx _ ctx tx sim _ acc err s hacc hzero hpay)⟩
  simp [transfersOf, List.filterMap_append, List.filterMap_cons, hnil]

/-- Witness of C13 on the concrete ledger: A holds 100 and is asked for 1000; the bank answers
with insufficient funds (code 5). -/
theorem C13_transfer_error_propagated_witness :
    asFeeTx (some greedyTx) = some ⟨[⟨"aphoton", 1000⟩], [10]⟩
      ∧ ledgerDeductFee.ak.GetModuleAddress FeeCollectorName = some collectorAddr
      ∧ (delegatedFeePayer exampleCodec (some greedyTx)
          (ledgerWorld.log (Event.getModuleAddress FeeCollectorName))).1 = Except.ok none
      ∧ ledgerDeductFee.ak.GetAccount exampleCtx ledgerWorld.store [10] = some ⟨[10], 0⟩
      ∧ Coins.IsZero [⟨"aphoton", 1000⟩] = false
      ∧ ledgerDeductFee.bankKeeper.DeductFees exampleCtx ledgerWorld.store ⟨[10], 0⟩
          [⟨"aphoton", 1000⟩]
        = (some (SdkError.collaborator 5 "insufficient funds"), exampleLedger)
      ∧ ∃ own : List Event,
          transfersOf own = [((⟨[10], 0⟩ : Account), ([⟨"aphoton", 1000⟩] : Coins))]
          ∧ ∀ next : AnteHandler Ledger,
              DeductFeeDecorator.AnteHandle exampleCodec ledgerDeductFee exampleCtx
                  (some greedyTx) false next ledgerWorld
                = (Result.ret exampleCtx (some (SdkError.collaborator 5 "insufficient funds")),
                    ⟨exampleLedger, ledgerWorld.trace ++ own⟩) :=
  ⟨rfl, by decide, rfl, by decide, by decide, rfl,
    C13_transfer_error_propagated exampleCodec ledgerDeductFee exampleCtx (some greedyTx) false
      ledgerWorld ⟨[⟨"aphoton", 1000⟩], [10]⟩ collectorAddr none ⟨[10], 0⟩
      (SdkError.collaborator 5 "insufficient funds") exampleLedger
      rfl (by decide) rfl (by decide) (by decide) rfl⟩

/-- C14. For a transaction that does not expose the fee-bearing capability (the assertion
`tx.(sdk.FeeTx)` fails), whatever the keepers, the codec and `next` are: `AnteHandle` returns
`ErrTxDecode` with the description "Tx must be a FeeTx" and the input context, and hands the
world back as it received it: the fee-collector configuration, the extension options, the account
store and the transfer service were not consulted, and `next` is not called. -/
theorem C14_not_fee_bearing {σ : Type} (codec : Codec) (dfd : DeductFeeDecorator σ)
    (ctx : Context) (tx : Tx) (sim : Bool) (w : World σ) (next : AnteHandler σ)
    (hfee : asFeeTx tx = none) :
    DeductFeeDecorator.AnteHandle codec dfd ctx tx sim next w
      = (Result.ret ctx (some (SdkError.ErrTxDecode "Tx must be a FeeTx")), w) := by
  simp [DeductFeeDecorator.AnteHandle, hfee]

/-- Witness of C14: the Ethereum-tagged transaction is not fee-bearing; on the node without fee
collector the step still returns the error instead of panicking. -/
theorem C14_not_fee_bearing_witness :
    asFeeTx (some ethereumTx) = none
      ∧ DeductFeeDecorator.AnteHandle exampleCodec unconfiguredDeductFee exampleCtx
          (some ethereumTx) false nilHandler ledgerWorld
        = (Result.ret exampleCtx (some (SdkError.ErrTxDecode "Tx must be a FeeTx")),
            ledgerWorld) :=
  ⟨rfl, C14_not_fee_bearing exampleCodec unconfiguredDeductFee exampleCtx (some ethereumTx)
    false ledgerWorld nilHandler rfl⟩

/-! ## Theorems: faults, malformed input, and the remaining claims -/

/-- C15. For every context, transaction, simulate flag and behaviour of the decorators, the
handler returned by `NewAnteHandler` never panics: it always returns a context and an error
slot; and when the dispatch body faults with the value `v` (a decorator of the selected chain
panicked, a gas meter was exhausted), the handler returns the non-nil error `ErrPanic` carrying
`v`, with the zero context of the unassigned named result, in the world the fault left. -/
theorem C15_faults_contained {σ : Type} (impl : Decorator → AnteDecorator σ) (ctx : Context)
    (tx : Tx) (sim : Bool) (w : World σ) :
    (∃ (c : Context) (e : Option SdkError) (w1 : World σ),
        NewAnteHandler impl ctx tx sim w = (Result.ret c e, w1))
      ∧ (∀ v : String, (NewAnteHandler impl ctx tx sim w).1 ≠ Result.panicked v)
      ∧ (∀ (v : String) (w1 : World σ),
          anteHandlerBody impl ctx tx sim w = (Result.panicked v, w1) →
          NewAnteHandler impl ctx tx sim w
            = (Result.ret Context.zero (some (SdkError.ErrPanic v)), w1)) := by
  unfold NewAnteHandler
  cases h : anteHandlerBody impl ctx tx sim w with
  | mk res w1 =>
    cases res with
    | ret c e =>
      refine ⟨⟨c, e, w1, rfl⟩, ?_, ?_⟩
      · intro v hv
        simp [Recover] at hv
      · intro v w2 hv
        cases hv
    | panicked v0 =>
      refine ⟨⟨Context.zero, some (SdkError.ErrPanic v0), w1, rfl⟩, ?_, ?_⟩
      · intro v hv
        simp [Recover] at hv
      · intro v w2 hv
        cases hv
        rfl

/-- Witness of C15: the gas-for-size decorator of the Delegated-Signature chain runs out of
gas; the handler returns `ErrPanic` instead of panicking, after the five decorators before it
and the faulty one ran. -/
theorem C15_faults_contained_witness :
    anteHandlerBody
        (faultyAt Decorator.authante_NewConsumeGasForTxSizeDecorator "out of gas")
        exampleCtx (some web3Tx) false emptyWorld
      = (Result.panicked "out of gas",
          ⟨(), [ Event.ran .authante_NewSetUpContextDecorator,
                 Event.ran .authante_NewMempoolFeeDecorator,
                 Event.ran .authante_NewValidateBasicDecorator,
                 Event.ran .authante_NewTxTimeoutHeightDecorator,
                 Event.ran .authante_NewValidateMemoDecorator,
                 Event.ran .authante_NewConsumeGasForTxSizeDecorator ]⟩)
      ∧ NewAnteHandler
          (faultyAt Decorator.authante_NewConsumeGasForTxSizeDecorator "out of gas")
          exampleCtx (some web3Tx) false emptyWorld
        = (Result.ret Context.zero (some (SdkError.ErrPanic "out of gas")),
          ⟨(), [ Event.ran .authante_NewSetUpContextDecorator,
                 Event.ran .authante_NewMempoolFeeDecorator,
                 Event.ran .authante_NewValidateBasicDecorator,
                 Event.ran .authante_NewTxTimeoutHeightDecorator,
                 Event.ran .authante_NewValidateMemoDecorator,
                 Event.ran .authante_NewConsumeGasForTxSizeDecorator ]⟩) :=
  ⟨rfl, (C15_faults_contained
    (faultyAt Decorator.authante_NewConsumeGasForTxSizeDecorator "out of gas")
    exampleCtx (some web3Tx) false emptyWorld).2.2 _ _ rfl⟩

/-- C16. An input that does not satisfy the transaction capability (the nil `sdk.Tx`, the only
value of that static type on which the type switch takes its default arm) is rejected with
`ErrUnknownRequest`, "invalid transaction type", propagated as "transaction is not an SDK tx",
together with the input context; the world is handed back as received and the result is the same
whatever the decorators do: the assertion for extension options fails on it, so no tag is matched,
no chain is built and no decorator runs. -/
theorem C16_malformed_transaction {σ : Type} (impl : Decorator → AnteDecorator σ)
    (ctx : Context) (sim : Bool) (w : World σ) :
    getExtensionOptions none = none
      ∧ NewAnteHandler impl ctx none sim w
        = (Result.ret ctx (some (SdkError.propagated
              (SdkError.ErrUnknownRequest "invalid transaction type: <nil>")
              "transaction is not an SDK tx")), w) :=
  ⟨rfl, rfl⟩

/-- With a configured fee collector, a run of `AnteHandle` on a fee-bearing transaction
either forwards to `next` or stops by returning the input context with an error. -/
theorem AnteHandle_configured_outcome {σ : Type} (codec : Codec) (dfd : DeductFeeDecorator σ)
    (ctx : Context) (tx : Tx) (sim : Bool) (w : World σ) (feeTx : FeeTx) (c : AccAddress)
    (hfee : asFeeTx tx = some feeTx)
    (hcfg : dfd.ak.GetModuleAddress FeeCollectorName = some c) :
    ∃ (own : List Event) (s : σ),
      Forwards (DeductFeeDecorator.AnteHandle codec dfd) ctx tx sim w own s
        ∨ ∃ e : SdkError,
            Stops (DeductFeeDecorator.AnteHandle codec dfd) ctx tx sim w own s
              (Result.ret ctx (some e)) := by
  obtain ⟨res, pre, _, hres⟩ := delegatedFeePayer_shape (σ := σ) codec tx
  cases res with
  | error err =>
    exact ⟨_, _, Or.inr ⟨err,
      AnteHandle_resolution_error codec dfd ctx tx sim w feeTx c err pre hfee hcfg hres⟩⟩
  | ok r =>
    cases hacc : dfd.ak.GetAccount ctx w.store (r.getD feeTx.feePayer) with
    | none =>
      exact ⟨_, _, Or.inr ⟨_, AnteHandle_stops codec dfd ctx tx sim w feeTx c r pre _ _ _ hfee
        hcfg hres (deductFrom_noAccount dfd feeTx _ ctx tx sim _ hacc)⟩⟩
    | some acc =>
      cases hzero : feeTx.fee.IsZero with
      | true =>
        exact ⟨_, _, Or.inl (AnteHandle_forwards codec dfd ctx tx sim w feeTx c r pre _ _ hfee
          hcfg hres (deductFrom_zeroFee dfd feeTx _ ctx tx sim _ acc hacc hzero))⟩
      | false =>
        cases hpay : dfd.bankKeeper.DeductFees ctx w.store acc feeTx.fee with
        | mk oerr s1 =>
          cases oerr with
          | some err =>
            exact ⟨_, s1, Or.inr ⟨err, AnteHandle_stops codec dfd ctx tx sim w feeTx c r pre _ _
              _ hfee hcfg hres
              (deductFrom_failed dfd feeTx _ ctx tx sim _ acc err s1 hacc hzero hpay)⟩⟩
          | none =>
            exact ⟨_, s1, Or.inl (AnteHandle_forwards codec dfd ctx tx sim w feeTx c r pre _ _
              hfee hcfg hres
              (deductFrom_paid dfd feeTx _ ctx tx sim _ acc s1 hacc hzero hpay))⟩

/-- C17. For a fee-bearing transaction: if the account keeper has no fee-collector module
address, `AnteHandle` panics (it does not return an error), whatever `next` is, and all it did
before was to ask for that address: no extension option was unpacked or parsed, no account
looked up, no transfer issued, the store is as received; and if the fee collector is configured,
the step does not panic: it either hands over to `next` or returns the input context with an
error. -/
theorem C17_missing_fee_collector_is_fatal {σ : Type} (codec : Codec)
    (dfd : DeductFeeDecorator σ) (ctx : Context) (tx : Tx) (sim : Bool) (w : World σ)
    (feeTx : FeeTx) (hfee : asFeeTx tx = some feeTx) :
    (dfd.ak.GetModuleAddress FeeCollectorName = none →
        ∀ next : AnteHandler σ,
          DeductFeeDecorator.AnteHandle codec dfd ctx tx sim next w
            = (Result.panicked "fee_collector module account has not been set",
                ⟨w.store, w.trace ++ [Event.getModuleAddress FeeCollectorName]⟩))
      ∧ (∀ c : AccAddress, dfd.ak.GetModuleAddress FeeCollectorName = some c →
          ∃ (own : List Event) (s : σ),
            Forwards (DeductFeeDecorator.AnteHandle codec dfd) ctx tx sim w own s
              ∨ ∃ e : SdkError,
                  Stops (DeductFeeDecorator.AnteHandle codec dfd) ctx tx sim w own s
                    (Result.ret ctx (some e))) :=
  ⟨fun hcfg => AnteHandle_unconfigured codec dfd ctx tx sim w feeTx hfee hcfg,
    fun c hcfg => AnteHandle_configured_outcome codec dfd ctx tx sim w feeTx c hfee hcfg⟩

/-- Witness of C17: on the node without fee collector the delegated-fee transaction makes the
step panic; on the node with a fee collector the same transaction does not. -/
theorem C17_missing_fee_collector_is_fatal_witness :
    asFeeTx (some web3Tx) = some ⟨[⟨"aphoton", 10⟩], [10]⟩
      ∧ unconfiguredDeductFee.ak.GetModuleAddress FeeCollectorName = none
      ∧ (∀ next : AnteHandler Ledger,
          DeductFeeDecorator.AnteHandle exampleCodec unconfiguredDeductFee exampleCtx
              (some web3Tx) false next ledgerWorld
            = (Result.panicked "fee_collector module account has not been set",
                ⟨ledgerWorld.store,
                  ledgerWorld.trace ++ [Event.getModuleAddress FeeCollectorName]⟩))
      ∧ ledgerDeductFee.ak.GetModuleAddress FeeCollectorName = some collectorAddr
      ∧ ∃ (own : List Event) (s : Ledger),
          Forwards (DeductFeeDecorator.AnteHandle exampleCodec ledgerDeductFee) exampleCtx
              (some web3Tx) false ledgerWorld own s
            ∨ ∃ e : SdkError,
                Stops (DeductFeeDecorator.AnteHandle exampleCodec ledgerDeductFee) exampleCtx
                  (some web3Tx) false ledgerWorld own s (Result.ret exampleCtx (some e)) :=
  ⟨rfl, rfl,
    (C17_missing_fee_collector_is_fatal exampleCodec unconfiguredDeductFee exampleCtx
      (some web3Tx) false ledgerWorld ⟨[⟨"aphoton", 10⟩], [10]⟩ rfl).1 rfl,
    by decide,
    (C17_missing_fee_collector_is_fatal exampleCodec ledgerDeductFee exampleCtx
      (some web3Tx) false ledgerWorld ⟨[⟨"aphoton", 10⟩], [10]⟩ rfl).2 collectorAddr
      (by decide)⟩

/-- `AnteHandle` reads the transaction only through the fee-bearing capability, the payer
resolution and what it hands to `next`. -/
theorem AnteHandle_congr {σ : Type} (codec : Codec) (dfd : DeductFeeDecorator σ)
    (ctx : Context) (tx1 tx2 : Tx) (sim : Bool) (next1 next2 : AnteHandler σ) (w : World σ)
    (hfee : asFeeTx tx1 = asFeeTx tx2)
    (hres : ∀ w0 : World σ, delegatedFeePayer codec tx1 w0 = delegatedFeePayer codec tx2 w0)
    (hnext : next1 ctx tx1 sim = next2 ctx tx2 sim) :
    DeductFeeDecorator.AnteHandle codec dfd ctx tx1 sim next1 w
      = DeductFeeDecorator.AnteHandle codec dfd ctx tx2 sim next2 w := by
  simp only [DeductFeeDecorator.AnteHandle, DeductFeeDecorator.deductFrom, hfee, hres, hnext]

/-- Payer resolution reads the extension options only through the first one. -/
theorem delegatedFeePayer_first_only {σ : Type} (codec : Codec) (td1 td2 : TxData)
    (opt0 : Any) (rest1 rest2 : List Any)
    (h1 : td1.extensionOptions = some (opt0 :: rest1))
    (h2 : td2.extensionOptions = some (opt0 :: rest2)) (w : World σ) :
    delegatedFeePayer codec (some td1) w = delegatedFeePayer codec (some td2) w := by
  simp only [delegatedFeePayer, getExtensionOptions, h1, h2]

/-- C18. Two fee-bearing transactions with the same fee data and the same first extension
option, whatever their extension options after the first: payer resolution yields the same
outcome (the same payer, or the same error) with the same events; `AnteHandle` hands over to
`next` on the one exactly when it does on the other, after the same events and with the same
store, and stops on the one exactly when it stops on the other, with the same result; so for
every `next` that does not tell the two transactions apart the step returns the same result.
In particular an option after the first never sets the payer. -/
theorem C18_only_first_option {σ : Type} (codec : Codec) (dfd : DeductFeeDecorator σ)
    (ctx : Context) (td1 td2 : TxData) (sim : Bool) (w : World σ)
    (opt0 : Any) (rest1 rest2 : List Any)
    (h1 : td1.extensionOptions = some (opt0 :: rest1))
    (h2 : td2.extensionOptions = some (opt0 :: rest2))
    (hfee : td1.feeTx = td2.feeTx) :
    delegatedFeePayer codec (some td1) w = delegatedFeePayer codec (some td2) w
      ∧ (∀ (own : List Event) (s : σ),
          Forwards (DeductFeeDecorator.AnteHandle codec dfd) ctx (some td1) sim w own s
            ↔ Forwards (DeductFeeDecorator.AnteHandle codec dfd) ctx (some td2) sim w own s)
      ∧ (∀ (own : List Event) (s : σ) (r : Result),
          Stops (DeductFeeDecorator.AnteHandle codec dfd) ctx (some td1) sim w own s r
            ↔ Stops (DeductFeeDecorator.AnteHandle codec dfd) ctx (some td2) sim w own s r)
      ∧ (∀ next : AnteHandler σ, next ctx (some td1) sim = next ctx (some td2) sim →
          DeductFeeDecorator.AnteHandle codec dfd ctx (some td1) sim next w
            = DeductFeeDecorator.AnteHandle codec dfd ctx (some td2) sim next w) := by
  have hres12 : ∀ w0 : World σ,
      delegatedFeePayer codec (some td1) w0 = delegatedFeePayer codec (some td2) w0 :=
    fun w0 => delegatedFeePayer_first_only codec td1 td2 opt0 rest1 rest2 h1 h2 w0
  have hres21 : ∀ w0 : World σ,
      delegatedFeePayer codec (some td2) w0 = delegatedFeePayer codec (some td1) w0 :=
    fun w0 => (hres12 w0).symm
  have hfee12 : asFeeTx (some td1) = asFeeTx (some td2) := hfee
  refine ⟨hres12 w, ?_, ?_, ?_⟩
  · intro own s
    constructor
    · intro h next
      have e := AnteHandle_congr codec dfd ctx (some td1) (some td2) sim
        (fun c _ b w0 => next c (some td2) b w0) next w hfee12 hres12 rfl
      rw [← e]
      exact h (fun c _ b w0 => next c (some td2) b w0)
    · intro h next
      have e := AnteHandle_congr codec dfd ctx (some td2) (some td1) sim
        (fun c _ b w0 => next c (some td1) b w0) next w hfee12.symm hres21 rfl
      rw [← e]
      exact h (fun c _ b w0 => next c (some td1) b w0)
  · intro own s r
    constructor
    · intro h next
      have e := AnteHandle_congr codec dfd ctx (some td1) (some td2) sim
        (fun c _ b w0 => next c (some td2) b w0) next w hfee12 hres12 rfl
      rw [← e]
      exact h (fun c _ b w0 => next c (some td2) b w0)
    · intro h next
      have e := AnteHandle_congr codec dfd ctx (some td2) (some td1) sim
        (fun c _ b w0 => next c (some td1) b w0) next w hfee12.symm hres21 rfl
      rw [← e]
      exact h (fun c _ b w0 => next c (some td1) b w0)
  · intro next hnext
    exact AnteHandle_congr codec dfd ctx (some td1) (some td2) sim next next w hfee12 hres12 hnext

/-- Witness of C18 on the concrete ledger: the delegated-fee transaction, and the same with a
second option that names the fee collector as payer; both resolve payer B (`[20]`). -/
theorem C18_only_first_option_witness :
    web3Tx.extensionOptions
        = some ((⟨"/ethermint.types.v1.ExtensionOptionsWeb3Tx", [11]⟩ : Any) :: [])
      ∧ web3TxWithExtra.extensionOptions
        = some ((⟨"/ethermint.types.v1.ExtensionOptionsWeb3Tx", [11]⟩ : Any)
            :: [⟨"/ethermint.types.v1.ExtensionOptionsWeb3Tx", [13]⟩])
      ∧ web3Tx.feeTx = web3TxWithExtra.feeTx
      ∧ (delegatedFeePayer exampleCodec (some web3TxWithExtra) ledgerWorld).1
        = Except.ok (some [20])
      ∧ delegatedFeePayer exampleCodec (some web3Tx) ledgerWorld
        = delegatedFeePayer exampleCodec (some web3TxWithExtra) ledgerWorld
      ∧ DeductFeeDecorator.AnteHandle exampleCodec ledgerDeductFee exampleCtx (some web3Tx)
          false doneHandler ledgerWorld
        = DeductFeeDecorator.AnteHandle exampleCodec ledgerDeductFee exampleCtx
            (some web3TxWithExtra) false doneHandler ledgerWorld :=
  ⟨rfl, rfl, rfl, rfl,
    (C18_only_first_option exampleCodec ledgerDeductFee exampleCtx web3Tx web3TxWithExtra false
      ledgerWorld ⟨"/ethermint.types.v1.ExtensionOptionsWeb3Tx", [11]⟩ []
      [⟨"/ethermint.types.v1.ExtensionOptionsWeb3Tx", [13]⟩] rfl rfl rfl).1,
    (C18_only_first_option exampleCodec ledgerDeductFee exampleCtx web3Tx web3TxWithExtra false
      ledgerWorld ⟨"/ethermint.types.v1.ExtensionOptionsWeb3Tx", [11]⟩ []
      [⟨"/ethermint.types.v1.ExtensionOptionsWeb3Tx", [13]⟩] rfl rfl rfl).2.2.2 doneHandler rfl⟩

/-- C19. For a fee-bearing transaction with a non-empty extension-option list whose first
option the codec cannot unpack into an `ExtensionOptionsWeb3TxI`, on a node whose fee collector
is configured: whatever `next` is, `AnteHandle` returns `ErrUnpackAny` with the input context,
the store is as received, and all the step did was to ask for the fee-collector address and try
to unpack the first option: no account lookup (so no fall-back to the default payer), no
transfer, no call of `next`. -/
theorem C19_unpack_error {σ : Type} (codec : Codec) (dfd : DeductFeeDecorator σ)
    (ctx : Context) (td : TxData) (sim : Bool) (w : World σ) (feeTx : FeeTx)
    (opt0 : Any) (rest : List Any) (c : AccAddress)
    (hfee : td.feeTx = some feeTx)
    (hcfg : dfd.ak.GetModuleAddress FeeCollectorName = some c)
    (hopts : td.extensionOptions = some (opt0 :: rest))
    (hunpack : codec.UnpackAny opt0 = none) :
    ∀ next : AnteHandler σ,
      DeductFeeDecorator.AnteHandle codec dfd ctx (some td) sim next w
        = (Result.ret ctx (some (SdkError.ErrUnpackAny
              "failed to proto-unpack ExtensionOptionsWeb3Tx")),
            ⟨w.store, w.trace ++
              [ Event.getModuleAddress FeeCollectorName, Event.unpackAny opt0 ]⟩) := by
  intro next
  have hfee2 : asFeeTx (some td) = some feeTx := hfee
  simp [DeductFeeDecorator.AnteHandle, hfee2, hcfg, delegatedFeePayer, getExtensionOptions,
    hopts, hunpack, World.log]

/-- Witness of C19 on the concrete ledger: the first option `/cosmos.unknown.v1.Ext` does not
unpack; signer A is not looked up. -/
theorem C19_unpack_error_witness :
    unknownExtensionTx.feeTx = some ⟨[⟨"aphoton", 10⟩], [10]⟩
      ∧ ledgerDeductFee.ak.GetModuleAddress FeeCollectorName = some collectorAddr
      ∧ unknownExtensionTx.extensionOptions
        = some ((⟨"/cosmos.unknown.v1.Ext", []⟩ : Any)
            :: [⟨"/ethermint.types.v1.ExtensionOptionsWeb3Tx", []⟩])
      ∧ exampleCodec.UnpackAny ⟨"/cosmos.unknown.v1.Ext", []⟩ = none
      ∧ ∀ next : AnteHandler Ledger,
          DeductFeeDecorator.AnteHandle exampleCodec ledgerDeductFee exampleCtx
              (some unknownExtensionTx) false next ledgerWorld
            = (Result.ret exampleCtx (some (SdkError.ErrUnpackAny
                  "failed to proto-unpack ExtensionOptionsWeb3Tx")),
                ⟨ledgerWorld.store, ledgerWorld.trace ++
                  [ Event.getModuleAddress FeeCollectorName,
                    Event.unpackAny ⟨"/cosmos.unknown.v1.Ext", []⟩ ]⟩) :=
  ⟨rfl, by decide, rfl, by decide,
    C19_unpack_error exampleCodec ledgerDeductFee exampleCtx unknownExtensionTx false ledgerWorld
      ⟨[⟨"aphoton", 10⟩], [10]⟩ ⟨"/cosmos.unknown.v1.Ext", []⟩
      [⟨"/ethermint.types.v1.ExtensionOptionsWeb3Tx", []⟩] collectorAddr
      rfl (by decide) rfl (by decide)⟩

/-- C20. In the web3 arm of the dispatcher the "invalid transaction type" branch cannot be
taken: a transaction value for which the extension-options assertion succeeds with a non-empty
list whose first tag is the web3 tag is not nil, so the inner type switch takes the `sdk.Tx`
arm, and the handler builds and runs the Delegated-Signature chain (under the deferred
`Recover`). -/
theorem C20_web3_arm_runs_chain {σ : Type} (impl : Decorator → AnteDecorator σ) (ctx : Context)
    (tx : Tx) (sim : Bool) (w : World σ) (opt0 : Any) (rest : List Any)
    (hopts : getExtensionOptions tx = some (opt0 :: rest))
    (htag : opt0.typeUrl = web3TxTypeURL) :
    (∃ td : TxData, tx = some td)
      ∧ anteHandlerBody impl ctx tx sim w
        = ChainAnteDecorators (web3TxChain.map impl) ctx tx sim w
      ∧ NewAnteHandler impl ctx tx sim w
        = Recover (ChainAnteDecorators (web3TxChain.map impl) ctx tx sim w) := by
  cases tx with
  | none => simp [getExtensionOptions] at hopts
  | some td =>
    have hne : ¬ (web3TxTypeURL = ethereumTxTypeURL) := by decide
    have hbody : anteHandlerBody impl ctx (some td) sim w
        = ChainAnteDecorators (web3TxChain.map impl) ctx (some td) sim w := by
      simp [anteHandlerBody, hopts, htag, hne]
    exact ⟨⟨td, rfl⟩, hbody, by simp only [NewAnteHandler, hbody]⟩

/-- Witness of C20 on the web3-tagged transaction with traced decorators. -/
theorem C20_web3_arm_runs_chain_witness :
    getExtensionOptions (some web3Tx)
        = some ((⟨"/ethermint.types.v1.ExtensionOptionsWeb3Tx", [11]⟩ : Any) :: [])
      ∧ (⟨"/ethermint.types.v1.ExtensionOptionsWeb3Tx", [11]⟩ : Any).typeUrl = web3TxTypeURL
      ∧ ((∃ td : TxData, some web3Tx = some td)
        ∧ anteHandlerBody tracing exampleCtx (some web3Tx) false emptyWorld
          = ChainAnteDecorators (web3TxChain.map tracing) exampleCtx (some web3Tx) false
              emptyWorld
        ∧ NewAnteHandler tracing exampleCtx (some web3Tx) false emptyWorld
          = Recover (ChainAnteDecorators (web3TxChain.map tracing) exampleCtx (some web3Tx)
              false emptyWorld)) :=
  ⟨rfl, rfl,
    C20_web3_arm_runs_chain tracing exampleCtx (some web3Tx) false emptyWorld
      ⟨"/ethermint.types.v1.ExtensionOptionsWeb3Tx", [11]⟩ [] rfl rfl⟩

end Ante
